import Mathlib

/-!
Verification of the pool accounting and settlement engine of `X402InsuranceV8`
(contract in the repository, Solidity).  The contract state and every operation
named in the claims are embedded shallowly: `uint256` becomes `Nat`, and every
subtraction that Solidity 0.8 would revert on underflow is modelled with the
checked subtraction `sub?`, making each public operation a function
`ContractState → Option ContractState` (`none` = the transaction reverts and
leaves no state change).  The external USDC token is modelled by a ghost log
`transfersOut` recording each `usdcToken.transfer(to, amount)` call; incoming
`transferFrom` calls are assumed to succeed, as the spec assumes an atomic
external ledger.  Enum constants `INITIATED, DISPUTED, EXECUTED, REJECTED,
PARTIAL` of the source are written capitalized-camel here.
-/

namespace X402

abbrev Addr := Nat
abbrev Commitment := Nat

/-- Constant `MIN_POOL_BALANCE = 10 * 10**6` of the contract. -/
def MIN_POOL_BALANCE : Nat := 10 * 10 ^ 6

/-- Constant `MAX_POOL_BALANCE = 1000000 * 10**6` of the contract. -/
def MAX_POOL_BALANCE : Nat := 1000000 * 10 ^ 6

/-- Constant `MIN_CLAIM_AMOUNT = 1 * 10**5` of the contract. -/
def MIN_CLAIM_AMOUNT : Nat := 1 * 10 ^ 5

/-- Constant `MAX_CLAIM_AMOUNT = 10000 * 10**6` of the contract. -/
def MAX_CLAIM_AMOUNT : Nat := 10000 * 10 ^ 6

/-- Constant `PENALTY_RATE = 1000` (basis points) of the contract. -/
def PENALTY_RATE : Nat := 1000

/-- Constant `PLATFORM_FEE_RATE = 100` (basis points) of the contract. -/
def PLATFORM_FEE_RATE : Nat := 100

/-- Enum `ClaimStatus` of the contract. -/
inductive ClaimStatus where
  | Initiated
  | Disputed
  | Executed
  | Rejected
  | Partial
deriving DecidableEq

/-- Enum `ClaimReason` of the contract. -/
inductive ClaimReason where
  | NotDelivered
  | ServiceTimeout
  | PartialDelivery
deriving DecidableEq

/-- Struct `ProviderData` of the contract. -/
structure ProviderData where
  isActive : Bool
  poolBalance : Nat
  totalLocked : Nat
  successfulServices : Nat
  failedServices : Nat
  tier : Nat
  registeredAt : Nat
deriving DecidableEq

/-- Struct `ClaimInfo` of the contract. -/
structure ClaimInfo where
  client : Addr
  provider : Addr
  requestedAmount : Nat
  paidAmount : Nat
  pendingAmount : Nat
  initiatedAt : Nat
  disputeDeadline : Nat
  reason : ClaimReason
  status : ClaimStatus
deriving DecidableEq

/-- Struct `PendingCompensation` of the contract. -/
structure PendingCompensation where
  commitment : Commitment
  client : Addr
  amount : Nat
  createdAt : Nat
  isPaid : Bool
deriving DecidableEq

/-- Zero value of a `ProviderData` mapping slot. -/
def pd0 : ProviderData :=
  { isActive := false, poolBalance := 0, totalLocked := 0, successfulServices := 0,
    failedServices := 0, tier := 0, registeredAt := 0 }

/-- Zero value of a `ClaimInfo` mapping slot. -/
def claim0 : ClaimInfo :=
  { client := 0, provider := 0, requestedAmount := 0, paidAmount := 0, pendingAmount := 0,
    initiatedAt := 0, disputeDeadline := 0, reason := ClaimReason.NotDelivered,
    status := ClaimStatus.Initiated }

/-- Zero value of a `PendingCompensation` mapping slot. -/
def comp0 : PendingCompensation :=
  { commitment := 0, client := 0, amount := 0, createdAt := 0, isPaid := false }

/-- The contract storage.  Mappings are total functions defaulting to the zero
slot, exactly as EVM storage; `transfersOut` is a ghost log of outgoing token
transfers; `owner` models the `Ownable` owner used by the `onlyOwner` funding
functions. -/
structure ContractState where
  providers : Addr → ProviderData
  claims : Commitment → ClaimInfo
  providerPendingCompensations : Addr → List Commitment
  pendingCompensations : Commitment → PendingCompensation
  totalProviderPools : Nat
  emergencyPool : Nat
  platformInsuranceFund : Nat
  totalClaimsInitiated : Nat
  totalClaimsExecuted : Nat
  totalPendingCompensations : Nat
  owner : Addr
  transfersOut : List (Addr × Nat)

/-- Pointwise update of a mapping. -/
def upd {β : Type} (f : Nat → β) (k : Nat) (v : β) : Nat → β :=
  fun k' => if k' = k then v else f k'

/-- Checked subtraction: Solidity 0.8 `a - b` reverts when `b > a`. -/
def sub? (a b : Nat) : Option Nat :=
  if b ≤ a then some (a - b) else none

/-- The state right after deployment: every slot zero, no transfers. -/
def initialState : ContractState :=
  { providers := fun _ => pd0, claims := fun _ => claim0,
    providerPendingCompensations := fun _ => [], pendingCompensations := fun _ => comp0,
    totalProviderPools := 0, emergencyPool := 0, platformInsuranceFund := 0,
    totalClaimsInitiated := 0, totalClaimsExecuted := 0, totalPendingCompensations := 0,
    owner := 0, transfersOut := [] }

/-- Basis-point penalty: `(amount * PENALTY_RATE) / 10000`, as computed
throughout the contract. -/
def penaltyAmountOf (amount : Nat) : Nat := amount * PENALTY_RATE / 10000

/-- Basis-point platform fee: `(amount * PLATFORM_FEE_RATE) / 10000`. -/
def platformFeeOf (amount : Nat) : Nat := amount * PLATFORM_FEE_RATE / 10000

/-- `amount + penalty + platformFee`, the total a payment of `amount`
requires, as recomputed at each site in the contract. -/
def totalRequiredOf (amount : Nat) : Nat :=
  amount + penaltyAmountOf amount + platformFeeOf amount

/-- `_getDisputePeriod` of the contract (`1/5/15/30 minutes`, in seconds). -/
def disputePeriod (amount : Nat) : Nat :=
  if amount ≤ 10 * 10 ^ 6 then 60
  else if amount ≤ 100 * 10 ^ 6 then 300
  else if amount ≤ 1000 * 10 ^ 6 then 900
  else 1800

/-- The ternary `poolBalance > totalLocked ? poolBalance - totalLocked : 0`
used throughout the contract for a provider's liquid funds. -/
def availableOf (pd : ProviderData) : Nat :=
  if pd.totalLocked < pd.poolBalance then pd.poolBalance - pd.totalLocked else 0

/-- The contribution of one queue entry to `totalPending` in
`_processProportionalCompensations`: its `amount` when `!isPaid && amount > 0`,
else `0`. -/
def validAmount (s : ContractState) (c : Commitment) : Nat :=
  if (s.pendingCompensations c).isPaid = false ∧ 0 < (s.pendingCompensations c).amount
  then (s.pendingCompensations c).amount else 0

/-- `totalPending` as accumulated by the first loop of
`_processProportionalCompensations` over the queue `l`. -/
def totalPendingOf (s : ContractState) (l : List Commitment) : Nat :=
  (l.map (validAmount s)).sum

/-- The amount the distributor loop pays for entry `c` given the fixed
`availableFunds` (`A`) and `totalPending` (`T`): `min(amount, A*amount/T)` for
a valid entry, `0` otherwise.  This mirrors the body of the second loop. -/
def payTo (s : ContractState) (A T : Nat) (c : Commitment) : Nat :=
  if (s.pendingCompensations c).isPaid = false ∧ 0 < (s.pendingCompensations c).amount then
    if (s.pendingCompensations c).amount < A * (s.pendingCompensations c).amount / T
    then (s.pendingCompensations c).amount
    else A * (s.pendingCompensations c).amount / T
  else 0

/-- `_recordPendingCompensation` of the contract. -/
def recordPendingCompensation (s : ContractState) (commitment : Commitment) (client : Addr)
    (provider : Addr) (amount : Nat) (now : Nat) : ContractState :=
  { s with
    pendingCompensations := upd s.pendingCompensations commitment
      { commitment := commitment, client := client, amount := amount, createdAt := now,
        isPaid := false },
    providerPendingCompensations := upd s.providerPendingCompensations provider
      (s.providerPendingCompensations provider ++ [commitment]),
    totalPendingCompensations := s.totalPendingCompensations + amount }

/-- One payment of the distributor loop: pays `pp` against entry `c`, updating
the compensation record (`amount -= pp`, `isPaid` when it reaches zero), the
claim (`paidAmount += pp`, `pendingAmount -= pp`), the provider's pool and the
global totals, and logging the transfer to the claim's client.  The three
unguarded Solidity subtractions are checked. -/
def paymentStep (provider : Addr) (c : Commitment) (pp : Nat) (s : ContractState) :
    Option ContractState :=
  let comp := s.pendingCompensations c
  let claim := s.claims c
  let pd := s.providers provider
  match sub? claim.pendingAmount pp, sub? pd.poolBalance pp,
        sub? s.totalProviderPools pp, sub? s.totalPendingCompensations pp with
  | some pend', some pool', some tpp', some tpc' =>
    let comp' := if comp.amount - pp = 0
      then { comp with amount := 0, isPaid := true }
      else { comp with amount := comp.amount - pp }
    some { s with
      pendingCompensations := upd s.pendingCompensations c comp',
      claims := upd s.claims c
        { claim with paidAmount := claim.paidAmount + pp, pendingAmount := pend' },
      providers := upd s.providers provider ({ pd with poolBalance := pool' }),
      totalProviderPools := tpp',
      totalPendingCompensations := tpc',
      transfersOut := s.transfersOut ++ [(claim.client, pp)] }
  | _, _, _, _ => none

/-- The payment loop of `_processProportionalCompensations` (second `for`):
walks the queue with `availableFunds` and `totalPending` fixed, paying each
valid entry `min(amount, availableFunds*amount/totalPending)` via
`paymentStep`.  The payment is `payTo s availableFunds totalPending c`, whose
validity guard coincides with the loop's own `!isPaid && amount > 0` test. -/
def compLoop (provider : Addr) (availableFunds totalPending : Nat) :
    List Commitment → ContractState → Option ContractState
  | [], s => some s
  | c :: rest, s =>
    let comp := s.pendingCompensations c
    if comp.isPaid = false ∧ 0 < comp.amount then
      let pp := payTo s availableFunds totalPending c
      if 0 < pp then
        match paymentStep provider c pp s with
        | none => none
        | some s1 => compLoop provider availableFunds totalPending rest s1
      else compLoop provider availableFunds totalPending rest s
    else compLoop provider availableFunds totalPending rest s

/-- `_processProportionalCompensations` of the contract: early-returns on an
empty queue, zero available funds or zero total pending; otherwise runs the
payment loop and then compacts the queue, keeping entries with `!isPaid` in
order. -/
def processProportionalCompensations (s : ContractState) (provider : Addr) :
    Option ContractState :=
  let commitments := s.providerPendingCompensations provider
  if commitments.length = 0 then some s
  else
    let availableFunds := availableOf (s.providers provider)
    if availableFunds = 0 then some s
    else
      let totalPending := totalPendingOf s commitments
      if totalPending = 0 then some s
      else
        match compLoop provider availableFunds totalPending commitments s with
        | none => none
        | some s' =>
          some { s' with
            providerPendingCompensations := upd s'.providerPendingCompensations provider
              (commitments.filter (fun c => !(s'.pendingCompensations c).isPaid)) }

/-- `registerOrReactivate` of the contract. -/
def registerOrReactivate (s : ContractState) (sender : Addr) (now : Nat) (amount : Nat) :
    Option ContractState :=
  if amount < MIN_POOL_BALANCE then none
  else if MAX_POOL_BALANCE < amount then none
  else
    let p := s.providers sender
    let p1 := if p.registeredAt = 0 then { p with tier := 1, registeredAt := now } else p
    let p2 := { p1 with isActive := true, poolBalance := p1.poolBalance + amount }
    let s1 := { s with providers := upd s.providers sender p2,
                       totalProviderPools := s.totalProviderPools + amount }
    if (s1.providerPendingCompensations sender).length ≠ 0 then
      processProportionalCompensations s1 sender
    else some s1

/-- `depositAdditional` of the contract.  Note: the source checks only
`isActive` and the `MAX_POOL_BALANCE` ceiling; there is no minimum-amount
check. -/
def depositAdditional (s : ContractState) (sender : Addr) (amount : Nat) :
    Option ContractState :=
  let p := s.providers sender
  if p.isActive = false then none
  else if MAX_POOL_BALANCE < p.poolBalance + amount then none
  else
    let p1 := { p with poolBalance := p.poolBalance + amount }
    let s1 := { s with providers := upd s.providers sender p1,
                       totalProviderPools := s.totalProviderPools + amount }
    if (s1.providerPendingCompensations sender).length ≠ 0 then
      processProportionalCompensations s1 sender
    else some s1

/-- `withdraw` of the contract. -/
def withdraw (s : ContractState) (sender : Addr) (amount : Nat) : Option ContractState :=
  let p := s.providers sender
  if p.isActive = false then none
  else
    let available := availableOf p
    if available < amount then none
    else if p.poolBalance - amount < MIN_POOL_BALANCE then none
    else
      match sub? s.totalProviderPools amount with
      | none => none
      | some tpp =>
        some { s with
          providers := upd s.providers sender ({ p with poolBalance := p.poolBalance - amount }),
          totalProviderPools := tpp,
          transfersOut := s.transfersOut ++ [(sender, amount)] }

/-- `withdrawAllAndDeactivate` of the contract. -/
def withdrawAllAndDeactivate (s : ContractState) (sender : Addr) : Option ContractState :=
  let p := s.providers sender
  if p.isActive = false then none
  else if p.totalLocked ≠ 0 then none
  else
    let amount := p.poolBalance
    match sub? s.totalProviderPools amount with
    | none => none
    | some tpp =>
      let s1 := { s with
        providers := upd s.providers sender ({ p with isActive := false, poolBalance := 0 }),
        totalProviderPools := tpp }
      if 0 < amount then some { s1 with transfersOut := s1.transfersOut ++ [(sender, amount)] }
      else some s1

/-- The tail of `initiateClaim` after the three-way availability decision has
assigned `actualPaidAmount`, `pendingAmount` and `claimStatus` (source lines
256-282): locks `min(actualTotalRequired, providerAvailable)` from the
provider when something is payable, then creates the claim record and bumps
the counter.  `s1` is the state after the optional
`_recordPendingCompensation`. -/
def lockAndCreateClaim (s1 : ContractState) (sender : Addr) (now : Nat)
    (commitment : Commitment) (provider : Addr) (amount : Nat) (reason : ClaimReason)
    (providerAvailable actualPaidAmount pendingAmount : Nat) (claimStatus : ClaimStatus) :
    ContractState :=
  let s2 :=
    if 0 < actualPaidAmount then
      let actualTotalRequired := totalRequiredOf actualPaidAmount
      let fromProvider := if actualTotalRequired ≤ providerAvailable then actualTotalRequired
        else providerAvailable
      let pd := s1.providers provider
      let pd' := { pd with totalLocked := pd.totalLocked + fromProvider }
      { s1 with providers := upd s1.providers provider pd' }
    else s1
  { s2 with
    claims := upd s2.claims commitment
      { client := sender, provider := provider, requestedAmount := amount,
        paidAmount := actualPaidAmount, pendingAmount := pendingAmount,
        initiatedAt := now, disputeDeadline := now + disputePeriod amount,
        reason := reason, status := claimStatus },
    totalClaimsInitiated := s2.totalClaimsInitiated + 1 }

/-- `initiateClaim` of the contract.  The dead locals
`penaltyAmount/platformFee/totalRequired` computed for the requested `amount`
(source lines 218-220) are unused by the source and omitted; the common tail
after the three-way decision is `lockAndCreateClaim`. -/
def initiateClaim (s : ContractState) (sender : Addr) (now : Nat) (commitment : Commitment)
    (provider : Addr) (amount : Nat) (reason : ClaimReason) : Option ContractState :=
  if amount < MIN_CLAIM_AMOUNT then none
  else if MAX_CLAIM_AMOUNT < amount then none
  else if (s.claims commitment).initiatedAt ≠ 0 then none
  else if (s.providers provider).isActive = false then none
  else
    let providerAvailable := availableOf (s.providers provider)
    let totalAvailable := providerAvailable + s.emergencyPool + s.platformInsuranceFund
    if amount ≤ totalAvailable then
      some (lockAndCreateClaim s sender now commitment provider amount reason
        providerAvailable amount 0 ClaimStatus.Initiated)
    else if 0 < totalAvailable then
      some (lockAndCreateClaim
        (recordPendingCompensation s commitment sender provider (amount - totalAvailable) now)
        sender now commitment provider amount reason
        providerAvailable totalAvailable (amount - totalAvailable) ClaimStatus.Partial)
    else
      some (lockAndCreateClaim
        (recordPendingCompensation s commitment sender provider amount now)
        sender now commitment provider amount reason
        providerAvailable 0 amount ClaimStatus.Partial)

/-- The pool deduction block of `executeClaim` (source lines 307-316): takes
`fromProvider = min(totalRequired, poolBalance)` from the provider's pool,
releases `min(fromProvider, totalLocked)` from its lock and decreases the
(checked) global pool total. -/
def execDeductProvider (s : ContractState) (cp : Addr) (fromProvider : Nat) :
    Option ContractState :=
  if 0 < fromProvider then
    match sub? s.totalProviderPools fromProvider with
    | none => none
    | some tpp =>
      let pd := s.providers cp
      let pd' := { pd with
        poolBalance := pd.poolBalance - fromProvider,
        totalLocked := pd.totalLocked -
          (if fromProvider ≤ pd.totalLocked then fromProvider else pd.totalLocked) }
      some { s with providers := upd s.providers cp pd', totalProviderPools := tpp }
  else some s

/-- The emergency/platform fallback block of `executeClaim` (source lines
318-328): covers the shortfall first from `emergencyPool`, then (checked)
from `platformInsuranceFund`. -/
def execFallback (s : ContractState) (fromProvider totalRequired : Nat) :
    Option ContractState :=
  if fromProvider < totalRequired then
    let fromEmergency := totalRequired - fromProvider
    if fromEmergency ≤ s.emergencyPool then
      some { s with emergencyPool := s.emergencyPool - fromEmergency }
    else
      let fromPlatform := fromEmergency - s.emergencyPool
      match sub? s.platformInsuranceFund fromPlatform with
      | none => none
      | some pf => some { s with emergencyPool := 0, platformInsuranceFund := pf }
  else some s

/-- The fee-routing and payout block of `executeClaim` (source lines 330-335):
credits half the penalty to the emergency pool, the other (floored) half plus
the platform fee to the platform fund, and transfers the scheduled amount to
the client. -/
def execCredit (s : ContractState) (client : Addr) (P penaltyAmount platformFee : Nat) :
    ContractState :=
  { s with
    emergencyPool := s.emergencyPool + penaltyAmount / 2,
    platformInsuranceFund := s.platformInsuranceFund + penaltyAmount / 2 + platformFee,
    transfersOut := s.transfersOut ++ [(client, P)] }

/-- The ternary `totalRequired <= poolBalance ? totalRequired : poolBalance`
of `executeClaim` (source lines 308-309): how much of the required total the
provider's own pool covers. -/
def fromProviderOf (s : ContractState) (cp : Addr) (P : Nat) : Nat :=
  if totalRequiredOf P ≤ (s.providers cp).poolBalance then totalRequiredOf P
  else (s.providers cp).poolBalance

/-- The shortfall `totalRequired - fromProvider` that the emergency pool and
platform fund must cover during `executeClaim`. -/
def shortfallOf (s : ContractState) (cp : Addr) (P : Nat) : Nat :=
  totalRequiredOf P - fromProviderOf s cp P

/-- The whole payment paragraph of `executeClaim` (source lines 301-336),
for a claim of client `client` against provider `cp` with scheduled amount
`P`: a no-op when `P = 0`, otherwise deduction, fallback and fee/payout. -/
def execPay (s : ContractState) (client cp : Addr) (P : Nat) : Option ContractState :=
  if 0 < P then
    match execDeductProvider s cp (fromProviderOf s cp P) with
    | none => none
    | some sA =>
      match execFallback sA (fromProviderOf s cp P) (totalRequiredOf P) with
      | none => none
      | some sB => some (execCredit sB client P (penaltyAmountOf P) (platformFeeOf P))
  else some s

/-- `executeClaim` of the contract, assembled from the blocks above. -/
def executeClaim (s : ContractState) (now : Nat) (commitment : Commitment) :
    Option ContractState :=
  let claim := s.claims commitment
  if claim.initiatedAt = 0 then none
  else if ¬(claim.status = ClaimStatus.Initiated ∨ claim.status = ClaimStatus.Partial) then none
  else if ¬(claim.disputeDeadline < now) then none
  else
    match execPay s claim.client claim.provider claim.paidAmount with
    | none => none
    | some sC =>
      if claim.pendingAmount = 0 then
        let pd2 := sC.providers claim.provider
        some { sC with
          claims := upd sC.claims commitment
            { (sC.claims commitment) with status := ClaimStatus.Executed },
          providers := upd sC.providers claim.provider
            { pd2 with successfulServices := pd2.successfulServices + 1 },
          totalClaimsExecuted := sC.totalClaimsExecuted + 1 }
      else
        some { sC with
          claims := upd sC.claims commitment
            { (sC.claims commitment) with status := ClaimStatus.Partial },
          totalClaimsExecuted := sC.totalClaimsExecuted + 1 }

/-- `disputeClaim` of the contract (the unused `evidence` string is omitted). -/
def disputeClaim (s : ContractState) (sender : Addr) (now : Nat) (commitment : Commitment) :
    Option ContractState :=
  let claim := s.claims commitment
  if claim.initiatedAt = 0 then none
  else if claim.provider ≠ sender then none
  else if ¬(claim.status = ClaimStatus.Initiated ∨ claim.status = ClaimStatus.Partial) then none
  else if claim.disputeDeadline < now then none
  else
    let claimD := { claim with status := ClaimStatus.Disputed }
    let s1 := { s with claims := upd s.claims commitment claimD }
    if 0 < claim.paidAmount then
      let pd := s1.providers sender
      let lockedAmount := totalRequiredOf claim.paidAmount
      let newLocked := if lockedAmount ≤ pd.totalLocked then pd.totalLocked - lockedAmount else 0
      some { s1 with providers := upd s1.providers sender ({ pd with totalLocked := newLocked }) }
    else some s1

/-- `fundEmergencyPool` of the contract (`onlyOwner`). -/
def fundEmergencyPool (s : ContractState) (sender : Addr) (amount : Nat) :
    Option ContractState :=
  if sender ≠ s.owner then none
  else some { s with emergencyPool := s.emergencyPool + amount }

/-- `fundPlatformInsurance` of the contract (`onlyOwner`). -/
def fundPlatformInsurance (s : ContractState) (sender : Addr) (amount : Nat) :
    Option ContractState :=
  if sender ≠ s.owner then none
  else some { s with platformInsuranceFund := s.platformInsuranceFund + amount }

/-! ### Basic lemmas about the mapping update and checked subtraction -/

@[simp] lemma upd_same {β : Type} (f : Nat → β) (k : Nat) (v : β) : upd f k v k = v := by
  simp [upd]

@[simp] lemma upd_ne {β : Type} (f : Nat → β) (k : Nat) (v : β) (x : Nat) (h : x ≠ k) :
    upd f k v x = f x := by simp [upd, h]

lemma sub?_eq_some {a b c : Nat} : sub? a b = some c ↔ b ≤ a ∧ c = a - b := by
  unfold sub?
  split <;> simp_all [eq_comm]

/-- Success characterization of one distributor payment. -/
lemma paymentStep_spec {p : Addr} {c : Commitment} {pp : Nat} {s s' : ContractState}
    (h : paymentStep p c pp s = some s') :
    pp ≤ (s.claims c).pendingAmount ∧ pp ≤ (s.providers p).poolBalance ∧
    pp ≤ s.totalProviderPools ∧ pp ≤ s.totalPendingCompensations ∧
    s' = { s with
      pendingCompensations := upd s.pendingCompensations c
        (if (s.pendingCompensations c).amount - pp = 0
         then { s.pendingCompensations c with amount := 0, isPaid := true }
         else { s.pendingCompensations c with
                amount := (s.pendingCompensations c).amount - pp }),
      claims := upd s.claims c
        { s.claims c with paidAmount := (s.claims c).paidAmount + pp,
                          pendingAmount := (s.claims c).pendingAmount - pp },
      providers := upd s.providers p
        ({ s.providers p with poolBalance := (s.providers p).poolBalance - pp }),
      totalProviderPools := s.totalProviderPools - pp,
      totalPendingCompensations := s.totalPendingCompensations - pp,
      transfersOut := s.transfersOut ++ [((s.claims c).client, pp)] } := by
  unfold paymentStep at h
  by_cases h1 : pp ≤ (s.claims c).pendingAmount <;>
    by_cases h2 : pp ≤ (s.providers p).poolBalance <;>
      by_cases h3 : pp ≤ s.totalProviderPools <;>
        by_cases h4 : pp ≤ s.totalPendingCompensations <;>
          simp_all [sub?, eq_comm]

/-- The distributor loop does not touch locks, other providers, the queues, nor
any claim's identity, request or `paid + pending` sum. -/
lemma compLoop_frame (p : Addr) (A T : Nat) (l : List Commitment) :
    ∀ s s' : ContractState, compLoop p A T l s = some s' →
      (∀ a, (s'.providers a).totalLocked = (s.providers a).totalLocked) ∧
      (∀ a, a ≠ p → s'.providers a = s.providers a) ∧
      s'.providerPendingCompensations = s.providerPendingCompensations ∧
      (∀ c, (s'.claims c).initiatedAt = (s.claims c).initiatedAt ∧
            (s'.claims c).requestedAmount = (s.claims c).requestedAmount ∧
            (s'.claims c).paidAmount + (s'.claims c).pendingAmount
              = (s.claims c).paidAmount + (s.claims c).pendingAmount) := by
  induction l with
  | nil =>
    intro s s' h
    simp only [compLoop] at h
    cases h
    exact ⟨fun _ => rfl, fun _ _ => rfl, rfl, fun _ => ⟨rfl, rfl, rfl⟩⟩
  | cons c rest ih =>
    intro s s' h
    simp only [compLoop] at h
    split at h
    · split at h
      · split at h
        · cases h
        · rename_i s1 heq
          obtain ⟨hle, _, _, _, rfl⟩ := paymentStep_spec heq
          obtain ⟨f1, f2, f3, f4⟩ := ih _ _ h
          refine ⟨?_, ?_, ?_, ?_⟩
          · intro a
            rw [f1 a]
            by_cases hap : a = p
            · subst hap; simp
            · simp [hap]
          · intro a hap
            rw [f2 a hap]
            simp [hap]
          · rw [f3]
          · intro c'
            obtain ⟨g1, g2, g3⟩ := f4 c'
            by_cases hcc : c' = c
            · subst hcc
              refine ⟨by simpa using g1, by simpa using g2, ?_⟩
              rw [g3]
              simp only [upd_same]
              omega
            · exact ⟨by simpa [hcc] using g1, by simpa [hcc] using g2,
                     by simpa [hcc] using g3⟩
      · exact ih _ _ h
    · exact ih _ _ h

/-- Exact pool accounting of the distributor loop over a duplicate-free queue:
the pool decreases by exactly the sum of the per-entry payments computed from
the entry state. -/
lemma compLoop_pool (p : Addr) (A T : Nat) (l : List Commitment) :
    ∀ s s' : ContractState, l.Nodup → compLoop p A T l s = some s' →
      (s'.providers p).poolBalance + (l.map (payTo s A T)).sum
        = (s.providers p).poolBalance := by
  induction l with
  | nil =>
    intro s s' _ h
    simp only [compLoop] at h
    cases h
    simp
  | cons c rest ih =>
    intro s s' hnd h
    have hcr : c ∉ rest := (List.nodup_cons.mp hnd).1
    have hndr : rest.Nodup := (List.nodup_cons.mp hnd).2
    simp only [compLoop] at h
    split at h
    · rename_i hv
      split at h
      · rename_i hpos
        split at h
        · cases h
        · rename_i s1 heq
          obtain ⟨_, hle, _, _, hs1⟩ := paymentStep_spec heq
          have hrest := ih _ _ hndr h
          have hpool1 : (s1.providers p).poolBalance
              = (s.providers p).poolBalance - payTo s A T c := by
            rw [hs1]; simp
          have hmap : rest.map (payTo s1 A T) = rest.map (payTo s A T) := by
            apply List.map_congr_left
            intro x hx
            have hxc : x ≠ c := fun hh => hcr (hh ▸ hx)
            have : s1.pendingCompensations x = s.pendingCompensations x := by
              rw [hs1]; simp [hxc]
            simp [payTo, this]
          rw [hmap, hpool1] at hrest
          simp only [List.map_cons, List.sum_cons]
          omega
      · rename_i hpos
        have hrest := ih _ _ hndr h
        have hhead : payTo s A T c = 0 := by omega
        simp only [List.map_cons, List.sum_cons, hhead]
        omega
    · rename_i hv
      have hrest := ih _ _ hndr h
      have hhead : payTo s A T c = 0 := by
        simp [payTo, hv]
      simp only [List.map_cons, List.sum_cons, hhead]
      omega

/-- Sum of truncated divisions is at most the truncated division of the sum. -/
lemma sum_div_le (d : Nat) : ∀ xs : List Nat, (xs.map (fun x => x / d)).sum ≤ xs.sum / d
  | [] => by simp
  | x :: xs => by
    simp only [List.map_cons, List.sum_cons]
    calc x / d + (xs.map (fun x => x / d)).sum ≤ x / d + xs.sum / d :=
          Nat.add_le_add_left (sum_div_le d xs) _
      _ ≤ (x + xs.sum) / d := Nat.add_div_le_add_div _ _ _

/-- Each per-entry payment is at most its proportional share. -/
lemma payTo_le (s : ContractState) (A T : Nat) (c : Commitment) :
    payTo s A T c ≤ A * validAmount s c / T := by
  unfold payTo validAmount
  split
  · split <;> omega
  · simp

/-- Factoring the shared multiplier out of the proportional shares. -/
lemma sum_mul_validAmount (s : ContractState) (A : Nat) (l : List Commitment) :
    (l.map (fun c => A * validAmount s c)).sum = A * totalPendingOf s l := by
  unfold totalPendingOf
  induction l with
  | nil => simp
  | cons x xs ihx => simp [List.map_cons, List.sum_cons, ihx, Nat.mul_add]

/-- The total the loop pays never exceeds the available funds: the payments
are bounded by `A * r_i / T` whose sum is at most `A`. -/
lemma sum_payTo_le (s : ContractState) (A T : Nat) (l : List Commitment)
    (hT : 0 < T) (hTe : totalPendingOf s l = T) :
    (l.map (payTo s A T)).sum ≤ A := by
  have h1 : (l.map (payTo s A T)).sum ≤ (l.map (fun c => A * validAmount s c / T)).sum :=
    List.sum_le_sum (fun c _ => payTo_le s A T c)
  have h2 : (l.map (fun c => A * validAmount s c / T)).sum
      ≤ (l.map (fun c => A * validAmount s c)).sum / T := by
    have := sum_div_le T (l.map (fun c => A * validAmount s c))
    simpa [List.map_map, Function.comp] using this
  have h3 := sum_mul_validAmount s A l
  rw [hTe] at h3
  calc (l.map (payTo s A T)).sum ≤ (l.map (fun c => A * validAmount s c)).sum / T :=
        le_trans h1 h2
    _ = A * T / T := by rw [h3]
    _ = A := Nat.mul_div_cancel _ hT

/-- Case analysis of the distributor: either one of the three early returns
fires and the state is unchanged, or the payment loop ran (with positive
available funds and total pending) and the queue was compacted. -/
lemma process_cases {s : ContractState} {p : Addr} {s' : ContractState}
    (h : processProportionalCompensations s p = some s') :
    s' = s ∨
    ∃ s1, compLoop p (availableOf (s.providers p))
        (totalPendingOf s (s.providerPendingCompensations p))
        (s.providerPendingCompensations p) s = some s1 ∧
      0 < availableOf (s.providers p) ∧
      0 < totalPendingOf s (s.providerPendingCompensations p) ∧
      s' = { s1 with
          providerPendingCompensations := upd s1.providerPendingCompensations p
            ((s.providerPendingCompensations p).filter
              (fun c => !(s1.pendingCompensations c).isPaid)) } := by
  simp only [processProportionalCompensations] at h
  by_cases hlen : (s.providerPendingCompensations p).length = 0
  · rw [if_pos hlen] at h; cases h; left; rfl
  · rw [if_neg hlen] at h
    by_cases hA : availableOf (s.providers p) = 0
    · rw [if_pos hA] at h; cases h; left; rfl
    · rw [if_neg hA] at h
      by_cases hT : totalPendingOf s (s.providerPendingCompensations p) = 0
      · rw [if_pos hT] at h; cases h; left; rfl
      · rw [if_neg hT] at h
        cases heq : compLoop p (availableOf (s.providers p))
            (totalPendingOf s (s.providerPendingCompensations p))
            (s.providerPendingCompensations p) s with
        | none => rw [heq] at h; cases h
        | some s1 =>
          rw [heq] at h
          cases h
          right
          exact ⟨s1, rfl, Nat.pos_of_ne_zero hA, Nat.pos_of_ne_zero hT, rfl⟩

/-! ### System invariant -/

/-- Invariant: no provider's lock ever exceeds its pool balance. -/
def lockedLe (s : ContractState) : Prop :=
  ∀ a, (s.providers a).totalLocked ≤ (s.providers a).poolBalance

/-- Invariant: every provider's pending-compensation queue is duplicate-free. -/
def queuesNodup (s : ContractState) : Prop :=
  ∀ a, (s.providerPendingCompensations a).Nodup

/-- Invariant: every queued commitment belongs to an existing claim. -/
def queueClaimsLive (s : ContractState) : Prop :=
  ∀ a c, c ∈ s.providerPendingCompensations a → 0 < (s.claims c).initiatedAt

/-- Invariant: every existing claim satisfies `paid + pending = requested`. -/
def claimSum (s : ContractState) : Prop :=
  ∀ c, 0 < (s.claims c).initiatedAt →
    (s.claims c).paidAmount + (s.claims c).pendingAmount = (s.claims c).requestedAmount

/-- The inductive system invariant. -/
def SysInv (s : ContractState) : Prop :=
  lockedLe s ∧ queuesNodup s ∧ queueClaimsLive s ∧ claimSum s

/-- The proportional distributor preserves the system invariant. -/
lemma process_preserves {s s' : ContractState} {p : Addr}
    (hinv : SysInv s) (h : processProportionalCompensations s p = some s') : SysInv s' := by
  obtain ⟨hL, hN, hQ, hS⟩ := hinv
  rcases process_cases h with rfl | ⟨s1, hloop, hA, hT, rfl⟩
  · exact ⟨hL, hN, hQ, hS⟩
  · obtain ⟨f1, f2, f3, f4⟩ := compLoop_frame _ _ _ _ _ _ hloop
    have hpool := compLoop_pool _ _ _ _ _ _ (hN p) hloop
    have hsum := sum_payTo_le s (availableOf (s.providers p))
      (totalPendingOf s (s.providerPendingCompensations p))
      (s.providerPendingCompensations p) hT rfl
    refine ⟨?_, ?_, ?_, ?_⟩
    · intro a
      show (s1.providers a).totalLocked ≤ (s1.providers a).poolBalance
      by_cases hap : a = p
      · subst hap
        have hlt : (s.providers a).totalLocked < (s.providers a).poolBalance := by
          unfold availableOf at hA
          split at hA
          · assumption
          · omega
        have hAeq : availableOf (s.providers a)
            = (s.providers a).poolBalance - (s.providers a).totalLocked := by
          unfold availableOf
          rw [if_pos hlt]
        rw [f1 a]
        omega
      · rw [f2 a hap]
        exact hL a
    · intro a
      by_cases hap : a = p
      · subst hap
        show (upd s1.providerPendingCompensations a _ a).Nodup
        rw [upd_same]
        exact (hN a).filter _
      · show (upd s1.providerPendingCompensations p _ a).Nodup
        rw [upd_ne _ _ _ _ hap, f3]
        exact hN a
    · intro a c hc
      show 0 < (s1.claims c).initiatedAt
      rw [(f4 c).1]
      by_cases hap : a = p
      · subst hap
        have hx : c ∈ (upd s1.providerPendingCompensations a
            ((s.providerPendingCompensations a).filter
              (fun c => !(s1.pendingCompensations c).isPaid))) a := hc
        rw [upd_same] at hx
        exact hQ a c (List.mem_of_mem_filter hx)
      · have hx : c ∈ (upd s1.providerPendingCompensations p
            ((s.providerPendingCompensations p).filter
              (fun c => !(s1.pendingCompensations c).isPaid))) a := hc
        rw [upd_ne _ _ _ _ hap, f3] at hx
        exact hQ a c hx
    · intro c hc
      obtain ⟨g1, g2, g3⟩ := f4 c
      show (s1.claims c).paidAmount + (s1.claims c).pendingAmount
        = (s1.claims c).requestedAmount
      rw [g2, g3]
      exact hS c (by rw [← g1]; exact hc)

/-- A state transformation that keeps the queues, keeps every claim's
identity and amounts, and keeps every lock below its pool, preserves the
system invariant. -/
lemma SysInv_frame {s t : ContractState} (hinv : SysInv s)
    (hqueues : t.providerPendingCompensations = s.providerPendingCompensations)
    (hclaims : ∀ c, (t.claims c).initiatedAt = (s.claims c).initiatedAt ∧
        (t.claims c).requestedAmount = (s.claims c).requestedAmount ∧
        (t.claims c).paidAmount = (s.claims c).paidAmount ∧
        (t.claims c).pendingAmount = (s.claims c).pendingAmount)
    (hlocked : ∀ x, (t.providers x).totalLocked ≤ (t.providers x).poolBalance) :
    SysInv t := by
  obtain ⟨hL, hN, hQ, hS⟩ := hinv
  refine ⟨hlocked, ?_, ?_, ?_⟩
  · intro x
    rw [hqueues]
    exact hN x
  · intro x c hc
    rw [hqueues] at hc
    rw [(hclaims c).1]
    exact hQ x c hc
  · intro c hc
    obtain ⟨g1, g2, g3, g4⟩ := hclaims c
    rw [g2, g3, g4]
    exact hS c (by rw [← g1]; exact hc)

/-- `registerOrReactivate` preserves the system invariant. -/
lemma register_preserves {s s' : ContractState} {a : Addr} {now amt : Nat}
    (hinv : SysInv s) (h : registerOrReactivate s a now amt = some s') : SysInv s' := by
  simp only [registerOrReactivate] at h
  split at h
  · cases h
  · split at h
    · cases h
    · split at h
      · refine process_preserves (SysInv_frame hinv ?_ ?_ ?_) h
        · rfl
        · exact fun c => ⟨rfl, rfl, rfl, rfl⟩
        intro x
        by_cases hx : x = a
        · subst hx
          show ((upd s.providers x _) x).totalLocked ≤ ((upd s.providers x _) x).poolBalance
          rw [upd_same]
          have := hinv.1 x
          split <;> simp <;> omega
        · show ((upd s.providers a _) x).totalLocked ≤ ((upd s.providers a _) x).poolBalance
          rw [upd_ne _ _ _ _ hx]
          exact hinv.1 x
      · cases h
        refine SysInv_frame hinv rfl (fun c => ⟨rfl, rfl, rfl, rfl⟩) ?_
        intro x
        by_cases hx : x = a
        · subst hx
          show ((upd s.providers x _) x).totalLocked ≤ ((upd s.providers x _) x).poolBalance
          rw [upd_same]
          have := hinv.1 x
          split <;> simp <;> omega
        · show ((upd s.providers a _) x).totalLocked ≤ ((upd s.providers a _) x).poolBalance
          rw [upd_ne _ _ _ _ hx]
          exact hinv.1 x

/-- `depositAdditional` preserves the system invariant. -/
lemma deposit_preserves {s s' : ContractState} {a : Addr} {amt : Nat}
    (hinv : SysInv s) (h : depositAdditional s a amt = some s') : SysInv s' := by
  simp only [depositAdditional] at h
  split at h
  · cases h
  · split at h
    · cases h
    · split at h
      · refine process_preserves (SysInv_frame hinv ?_ ?_ ?_) h
        · rfl
        · exact fun c => ⟨rfl, rfl, rfl, rfl⟩
        intro x
        by_cases hx : x = a
        · subst hx
          show ((upd s.providers x _) x).totalLocked ≤ ((upd s.providers x _) x).poolBalance
          rw [upd_same]
          have := hinv.1 x
          simp
          omega
        · show ((upd s.providers a _) x).totalLocked ≤ ((upd s.providers a _) x).poolBalance
          rw [upd_ne _ _ _ _ hx]
          exact hinv.1 x
      · cases h
        refine SysInv_frame hinv rfl (fun c => ⟨rfl, rfl, rfl, rfl⟩) ?_
        intro x
        by_cases hx : x = a
        · subst hx
          show ((upd s.providers x _) x).totalLocked ≤ ((upd s.providers x _) x).poolBalance
          rw [upd_same]
          have := hinv.1 x
          simp
          omega
        · show ((upd s.providers a _) x).totalLocked ≤ ((upd s.providers a _) x).poolBalance
          rw [upd_ne _ _ _ _ hx]
          exact hinv.1 x

/-- `withdraw` preserves the system invariant. -/
lemma withdraw_preserves {s s' : ContractState} {a : Addr} {amt : Nat}
    (hinv : SysInv s) (h : withdraw s a amt = some s') : SysInv s' := by
  simp only [withdraw] at h
  split at h
  · cases h
  · split at h
    · cases h
    · split at h
      · cases h
      · rename_i hact havail hmin
        have hAv : amt ≤ availableOf (s.providers a) := Nat.le_of_not_lt havail
        split at h
        · cases h
        · cases h
          refine SysInv_frame hinv rfl (fun c => ⟨rfl, rfl, rfl, rfl⟩) ?_
          intro x
          by_cases hx : x = a
          · subst hx
            show ((upd s.providers x _) x).totalLocked ≤ ((upd s.providers x _) x).poolBalance
            rw [upd_same]
            have hLa := hinv.1 x
            by_cases hlt : (s.providers x).totalLocked < (s.providers x).poolBalance
            · have : amt ≤ (s.providers x).poolBalance - (s.providers x).totalLocked := by
                unfold availableOf at hAv
                rwa [if_pos hlt] at hAv
              simp
              omega
            · have : amt ≤ 0 := by
                unfold availableOf at hAv
                rwa [if_neg hlt] at hAv
              simp
              omega
          · show ((upd s.providers a _) x).totalLocked ≤ ((upd s.providers a _) x).poolBalance
            rw [upd_ne _ _ _ _ hx]
            exact hinv.1 x

/-- `withdrawAllAndDeactivate` preserves the system invariant. -/
lemma withdrawAll_preserves {s s' : ContractState} {a : Addr}
    (hinv : SysInv s) (h : withdrawAllAndDeactivate s a = some s') : SysInv s' := by
  simp only [withdrawAllAndDeactivate] at h
  split at h
  · cases h
  · split at h
    · cases h
    · rename_i hact hlock
      split at h
      · cases h
      · split at h
        all_goals
          cases h
          refine SysInv_frame hinv rfl (fun c => ⟨rfl, rfl, rfl, rfl⟩) ?_
          intro x
          by_cases hx : x = a
        case pos =>
          subst hx
          show ((upd s.providers x _) x).totalLocked ≤ ((upd s.providers x _) x).poolBalance
          rw [upd_same]
          simp
          omega
        case neg =>
          show ((upd s.providers a _) x).totalLocked ≤ ((upd s.providers a _) x).poolBalance
          rw [upd_ne _ _ _ _ hx]
          exact hinv.1 x
        case pos =>
          subst hx
          show ((upd s.providers x _) x).totalLocked ≤ ((upd s.providers x _) x).poolBalance
          rw [upd_same]
          simp
          omega
        case neg =>
          show ((upd s.providers a _) x).totalLocked ≤ ((upd s.providers a _) x).poolBalance
          rw [upd_ne _ _ _ _ hx]
          exact hinv.1 x

/-- Characterization of a successful `disputeClaim`: the status flips to
`Disputed`, the provider's lock drops by `min(totalRequiredOf paidAmount,
totalLocked)` when something had been scheduled, and nothing else moves —
in particular no transfer happens and the compensation entry stays. -/
lemma disputeClaim_spec {s s' : ContractState} {sender : Addr} {now : Nat} {cid : Commitment}
    (h : disputeClaim s sender now cid = some s') :
    s'.claims = upd s.claims cid { s.claims cid with status := ClaimStatus.Disputed } ∧
    (∀ x, x ≠ sender → s'.providers x = s.providers x) ∧
    (s'.providers sender).poolBalance = (s.providers sender).poolBalance ∧
    (s'.providers sender).isActive = (s.providers sender).isActive ∧
    (s'.providers sender).successfulServices = (s.providers sender).successfulServices ∧
    (s'.providers sender).totalLocked =
      (if 0 < (s.claims cid).paidAmount then
        (if totalRequiredOf (s.claims cid).paidAmount ≤ (s.providers sender).totalLocked
         then (s.providers sender).totalLocked - totalRequiredOf (s.claims cid).paidAmount
         else 0)
       else (s.providers sender).totalLocked) ∧
    s'.emergencyPool = s.emergencyPool ∧
    s'.platformInsuranceFund = s.platformInsuranceFund ∧
    s'.totalProviderPools = s.totalProviderPools ∧
    s'.transfersOut = s.transfersOut ∧
    s'.pendingCompensations = s.pendingCompensations ∧
    s'.providerPendingCompensations = s.providerPendingCompensations ∧
    s'.totalPendingCompensations = s.totalPendingCompensations := by
  simp only [disputeClaim] at h
  split at h
  · cases h
  · split at h
    · cases h
    · split at h
      · cases h
      · split at h
        · cases h
        · split at h
          · rename_i hpos
            cases h
            refine ⟨rfl, ?_, ?_, ?_, ?_, ?_, rfl, rfl, rfl, rfl, rfl, rfl, rfl⟩
            · intro x hx
              simp [upd, hx]
            · simp [upd]
            · simp [upd]
            · simp [upd]
            · simp [upd, if_pos hpos]
          · rename_i hpos
            cases h
            refine ⟨rfl, fun x _ => rfl, rfl, rfl, rfl, ?_, rfl, rfl, rfl, rfl, rfl, rfl, rfl⟩
            rw [if_neg hpos]

/-- `disputeClaim` preserves the system invariant. -/
lemma dispute_preserves {s s' : ContractState} {sender : Addr} {now : Nat} {cid : Commitment}
    (hinv : SysInv s) (h : disputeClaim s sender now cid = some s') : SysInv s' := by
  obtain ⟨hc, hpne, hpool, _, _, hlock, _, _, _, _, _, hq, _⟩ := disputeClaim_spec h
  refine SysInv_frame hinv hq ?_ ?_
  · intro c
    rw [hc]
    by_cases hcc : c = cid
    · subst hcc
      rw [upd_same]
      exact ⟨rfl, rfl, rfl, rfl⟩
    · rw [upd_ne _ _ _ _ hcc]
      exact ⟨rfl, rfl, rfl, rfl⟩
  · intro x
    by_cases hx : x = sender
    · subst hx
      rw [hpool, hlock]
      have := hinv.1 x
      split
      · split <;> omega
      · omega
    · rw [hpne x hx]
      exact hinv.1 x

/-- Effect of the provider-deduction block. -/
lemma execDeduct_spec {s s' : ContractState} {cp : Addr} {fp : Nat}
    (h : execDeductProvider s cp fp = some s') :
    (∀ x, x ≠ cp → s'.providers x = s.providers x) ∧
    (s'.providers cp).poolBalance = (s.providers cp).poolBalance - fp ∧
    (s'.providers cp).totalLocked = (s.providers cp).totalLocked -
      (if fp ≤ (s.providers cp).totalLocked then fp else (s.providers cp).totalLocked) ∧
    (s'.providers cp).successfulServices = (s.providers cp).successfulServices ∧
    (s'.providers cp).isActive = (s.providers cp).isActive ∧
    s'.claims = s.claims ∧
    s'.emergencyPool = s.emergencyPool ∧
    s'.platformInsuranceFund = s.platformInsuranceFund ∧
    s'.transfersOut = s.transfersOut ∧
    s'.pendingCompensations = s.pendingCompensations ∧
    s'.providerPendingCompensations = s.providerPendingCompensations := by
  simp only [execDeductProvider] at h
  split at h
  · split at h
    · cases h
    · cases h
      refine ⟨?_, ?_, ?_, ?_, ?_, rfl, rfl, rfl, rfl, rfl, rfl⟩
      · intro x hx
        simp [upd, hx]
      all_goals simp [upd]
  · cases h
    refine ⟨fun x _ => rfl, ?_, ?_, rfl, rfl, rfl, rfl, rfl, rfl, rfl, rfl⟩
    · omega
    · rename_i hfp
      have : fp = 0 := by omega
      subst this
      simp

/-- Effect of the emergency/platform fallback block. -/
lemma execFallback_spec {s s' : ContractState} {fp req : Nat}
    (h : execFallback s fp req = some s') :
    s'.providers = s.providers ∧
    s'.claims = s.claims ∧
    s'.emergencyPool = (if req - fp ≤ s.emergencyPool
      then s.emergencyPool - (req - fp) else 0) ∧
    s'.platformInsuranceFund = (if req - fp ≤ s.emergencyPool
      then s.platformInsuranceFund
      else s.platformInsuranceFund - (req - fp - s.emergencyPool)) ∧
    s'.transfersOut = s.transfersOut ∧
    s'.pendingCompensations = s.pendingCompensations ∧
    s'.providerPendingCompensations = s.providerPendingCompensations := by
  simp only [execFallback] at h
  split at h
  · split at h
    · rename_i hlt hle
      cases h
      refine ⟨rfl, rfl, ?_, ?_, rfl, rfl, rfl⟩
      · rw [if_pos hle]
      · rw [if_pos hle]
    · rename_i hlt hle
      split at h
      · cases h
      · rename_i pf hpf
        rw [sub?_eq_some] at hpf
        cases h
        refine ⟨rfl, rfl, ?_, ?_, rfl, rfl, rfl⟩
        · rw [if_neg hle]
        · rw [if_neg hle]
          exact hpf.2
  · rename_i hge
    cases h
    have : req - fp = 0 := by omega
    refine ⟨rfl, rfl, ?_, ?_, rfl, rfl, rfl⟩
    · rw [this]
      simp
    · rw [this]
      simp

/-- Effect of the payment paragraph when something is scheduled: the pool
pays `fromProviderOf`, the emergency pool then the platform fund cover the
shortfall, half the penalty is credited to the emergency pool and the other
(floored) half plus the fee to the platform fund, and exactly `P` is
transferred to the client.  Claims, queues and compensation records are
untouched. -/
lemma execPay_spec_pos {s s' : ContractState} {client cp : Addr} {P : Nat}
    (h : execPay s client cp P = some s') (hP : 0 < P) :
    (s'.providers cp).poolBalance
      = (s.providers cp).poolBalance - fromProviderOf s cp P ∧
    (s'.providers cp).totalLocked
      = (s.providers cp).totalLocked -
        (if fromProviderOf s cp P ≤ (s.providers cp).totalLocked
         then fromProviderOf s cp P else (s.providers cp).totalLocked) ∧
    (∀ x, x ≠ cp → s'.providers x = s.providers x) ∧
    (s'.providers cp).successfulServices = (s.providers cp).successfulServices ∧
    s'.emergencyPool
      = (if shortfallOf s cp P ≤ s.emergencyPool
         then s.emergencyPool - shortfallOf s cp P else 0) + penaltyAmountOf P / 2 ∧
    s'.platformInsuranceFund
      = (if shortfallOf s cp P ≤ s.emergencyPool
         then s.platformInsuranceFund
         else s.platformInsuranceFund - (shortfallOf s cp P - s.emergencyPool))
        + penaltyAmountOf P / 2 + platformFeeOf P ∧
    s'.transfersOut = s.transfersOut ++ [(client, P)] ∧
    s'.claims = s.claims ∧
    s'.providerPendingCompensations = s.providerPendingCompensations ∧
    s'.pendingCompensations = s.pendingCompensations := by
  simp only [execPay] at h
  rw [if_pos hP] at h
  split at h
  · cases h
  · rename_i sA hd0
    split at h
    · cases h
    · rename_i sB hf0
      cases h
      obtain ⟨d1, d2, d3, d4, d5, d6, d7, d8, d9, d10, d11⟩ := execDeduct_spec hd0
      obtain ⟨e1, e2, e3, e4, e5, e6, e7⟩ := execFallback_spec hf0
      rw [d7] at e3
      rw [d7, d8] at e4
      refine ⟨?_, ?_, ?_, ?_, ?_, ?_, ?_, ?_, ?_, ?_⟩
      · show (sB.providers cp).poolBalance = _
        rw [e1, d2]
      · show (sB.providers cp).totalLocked = _
        rw [e1, d3]
      · intro x hx
        show sB.providers x = _
        rw [e1, d1 x hx]
      · show (sB.providers cp).successfulServices = _
        rw [e1, d4]
      · show sB.emergencyPool + penaltyAmountOf P / 2 = _
        rw [e3]
        rfl
      · show sB.platformInsuranceFund + penaltyAmountOf P / 2 + platformFeeOf P = _
        rw [e4]
        rfl
      · show sB.transfersOut ++ [(client, P)] = _
        rw [e5, d9]
      · show sB.claims = _
        rw [e2, d6]
      · show sB.providerPendingCompensations = _
        rw [e7, d11]
      · show sB.pendingCompensations = _
        rw [e6, d10]

/-- The payment paragraph is the identity when nothing is scheduled. -/
lemma execPay_spec_zero {s s' : ContractState} {client cp : Addr}
    (h : execPay s client cp 0 = some s') : s' = s := by
  simp only [execPay] at h
  rw [if_neg (by omega)] at h
  cases h
  rfl

/-- Characterization of a successful `executeClaim` on a claim with a
positive scheduled `paidAmount`: the payment paragraph runs as in
`execPay_spec_pos`, the status becomes `Executed` with a success bump when
nothing is pending, else stays `Partial`. -/
lemma executeClaim_spec_pos {s s' : ContractState} {now : Nat} {cid : Commitment}
    (h : executeClaim s now cid = some s')
    (hP : 0 < (s.claims cid).paidAmount) :
    (s'.providers (s.claims cid).provider).poolBalance
      = (s.providers (s.claims cid).provider).poolBalance -
        fromProviderOf s (s.claims cid).provider (s.claims cid).paidAmount ∧
    (s'.providers (s.claims cid).provider).totalLocked
      = (s.providers (s.claims cid).provider).totalLocked -
        (if fromProviderOf s (s.claims cid).provider (s.claims cid).paidAmount
            ≤ (s.providers (s.claims cid).provider).totalLocked
         then fromProviderOf s (s.claims cid).provider (s.claims cid).paidAmount
         else (s.providers (s.claims cid).provider).totalLocked) ∧
    (∀ x, x ≠ (s.claims cid).provider → s'.providers x = s.providers x) ∧
    s'.emergencyPool
      = (if shortfallOf s (s.claims cid).provider (s.claims cid).paidAmount
            ≤ s.emergencyPool
         then s.emergencyPool -
           shortfallOf s (s.claims cid).provider (s.claims cid).paidAmount
         else 0) + penaltyAmountOf (s.claims cid).paidAmount / 2 ∧
    s'.platformInsuranceFund
      = (if shortfallOf s (s.claims cid).provider (s.claims cid).paidAmount
            ≤ s.emergencyPool
         then s.platformInsuranceFund
         else s.platformInsuranceFund -
           (shortfallOf s (s.claims cid).provider (s.claims cid).paidAmount
             - s.emergencyPool))
        + penaltyAmountOf (s.claims cid).paidAmount / 2
        + platformFeeOf (s.claims cid).paidAmount ∧
    s'.transfersOut = s.transfersOut ++ [((s.claims cid).client, (s.claims cid).paidAmount)] ∧
    s'.claims = upd s.claims cid { s.claims cid with
      status := (if (s.claims cid).pendingAmount = 0
        then ClaimStatus.Executed else ClaimStatus.Partial) } ∧
    (s'.providers (s.claims cid).provider).successfulServices
      = (s.providers (s.claims cid).provider).successfulServices
        + (if (s.claims cid).pendingAmount = 0 then 1 else 0) ∧
    s'.providerPendingCompensations = s.providerPendingCompensations ∧
    s'.pendingCompensations = s.pendingCompensations := by
  simp only [executeClaim] at h
  split at h
  · cases h
  · split at h
    · cases h
    · split at h
      · cases h
      · split at h
        · cases h
        · rename_i sC hpay
          obtain ⟨p1, p2, p3, p4, p5, p6, p7, p8, p9, p10⟩ := execPay_spec_pos hpay hP
          split at h
          · rename_i hpz
            cases h
            refine ⟨?_, ?_, ?_, ?_, ?_, ?_, ?_, ?_, ?_, ?_⟩
            · show ((upd sC.providers (s.claims cid).provider _)
                  (s.claims cid).provider).poolBalance = _
              rw [upd_same]
              exact p1
            · show ((upd sC.providers (s.claims cid).provider _)
                  (s.claims cid).provider).totalLocked = _
              rw [upd_same]
              exact p2
            · intro x hx
              show (upd sC.providers (s.claims cid).provider _) x = _
              rw [upd_ne _ _ _ _ hx]
              exact p3 x hx
            · exact p5
            · exact p6
            · exact p7
            · show upd sC.claims cid _ = _
              rw [p8, if_pos hpz]
            · show ((upd sC.providers (s.claims cid).provider _)
                  (s.claims cid).provider).successfulServices = _
              rw [upd_same]
              show (sC.providers (s.claims cid).provider).successfulServices + 1 = _
              rw [p4, if_pos hpz]
            · exact p9
            · exact p10
          · rename_i hpz
            cases h
            refine ⟨p1, p2, p3, p5, p6, p7, ?_, ?_, p9, p10⟩
            · show upd sC.claims cid _ = _
              rw [p8, if_neg hpz]
            · rw [p4, if_neg hpz]
              omega

/-- Characterization of a successful `executeClaim` on a claim whose
scheduled `paidAmount` is zero: no funds move at all, only the status (and
possibly the success counter) change. -/
lemma executeClaim_spec_zero {s s' : ContractState} {now : Nat} {cid : Commitment}
    (h : executeClaim s now cid = some s')
    (hP : (s.claims cid).paidAmount = 0) :
    (∀ x, (s'.providers x).poolBalance = (s.providers x).poolBalance ∧
          (s'.providers x).totalLocked = (s.providers x).totalLocked) ∧
    s'.emergencyPool = s.emergencyPool ∧
    s'.platformInsuranceFund = s.platformInsuranceFund ∧
    s'.transfersOut = s.transfersOut ∧
    s'.claims = upd s.claims cid { s.claims cid with
      status := (if (s.claims cid).pendingAmount = 0
        then ClaimStatus.Executed else ClaimStatus.Partial) } ∧
    s'.providerPendingCompensations = s.providerPendingCompensations ∧
    s'.pendingCompensations = s.pendingCompensations := by
  simp only [executeClaim] at h
  split at h
  · cases h
  · split at h
    · cases h
    · split at h
      · cases h
      · rw [hP] at h
        split at h
        · cases h
        · rename_i sC hpay
          have hsc : sC = s := execPay_spec_zero hpay
          rw [hsc] at h
          split at h
          · rename_i hpz
            cases h
            refine ⟨?_, rfl, rfl, rfl, ?_, rfl, rfl⟩
            · intro x
              by_cases hx : x = (s.claims cid).provider
              · subst hx
                constructor <;> simp [upd]
              · constructor <;> simp [upd, hx]
            · rw [if_pos hpz]
          · rename_i hpz
            cases h
            refine ⟨fun x => ⟨rfl, rfl⟩, rfl, rfl, rfl, ?_, rfl, rfl⟩
            rw [if_neg hpz]

/-- `executeClaim` preserves the system invariant. -/
lemma execute_preserves {s s' : ContractState} {now : Nat} {cid : Commitment}
    (hinv : SysInv s) (h : executeClaim s now cid = some s') : SysInv s' := by
  by_cases hP : 0 < (s.claims cid).paidAmount
  · obtain ⟨p1, p2, p3, p4, p5, p6, p7, p8, p9, p10⟩ := executeClaim_spec_pos h hP
    refine SysInv_frame hinv p9 ?_ ?_
    · intro c
      rw [p7]
      by_cases hc : c = cid
      · subst hc
        rw [upd_same]
        exact ⟨rfl, rfl, rfl, rfl⟩
      · rw [upd_ne _ _ _ _ hc]
        exact ⟨rfl, rfl, rfl, rfl⟩
    · intro x
      by_cases hx : x = (s.claims cid).provider
      · subst hx
        rw [p1, p2]
        have hfp : fromProviderOf s (s.claims cid).provider (s.claims cid).paidAmount
            ≤ (s.providers (s.claims cid).provider).poolBalance := by
          unfold fromProviderOf
          split <;> omega
        have hL := hinv.1 (s.claims cid).provider
        split <;> omega
      · rw [p3 x hx]
        exact hinv.1 x
  · have hP0 : (s.claims cid).paidAmount = 0 := by omega
    obtain ⟨q1, q2, q3, q4, q5, q6, q7⟩ := executeClaim_spec_zero h hP0
    refine SysInv_frame hinv q6 ?_ ?_
    · intro c
      rw [q5]
      by_cases hc : c = cid
      · subst hc
        rw [upd_same]
        exact ⟨rfl, rfl, rfl, rfl⟩
      · rw [upd_ne _ _ _ _ hc]
        exact ⟨rfl, rfl, rfl, rfl⟩
    · intro x
      rw [(q1 x).1, (q1 x).2]
      exact hinv.1 x

/-- Field characterization of `lockAndCreateClaim`: the claim record is
created, the provider's lock grows by `min(totalRequiredOf actualPaid,
providerAvailable)` when something is payable, and nothing else changes. -/
lemma lockAndCreate_fields (s1 : ContractState) (sender now : Nat)
    (commitment : Commitment) (provider : Addr) (amount : Nat) (reason : ClaimReason)
    (pa actualPaid pending : Nat) (claimStatus : ClaimStatus) :
    (lockAndCreateClaim s1 sender now commitment provider amount reason
        pa actualPaid pending claimStatus).claims
      = upd s1.claims commitment
        { client := sender, provider := provider, requestedAmount := amount,
          paidAmount := actualPaid, pendingAmount := pending, initiatedAt := now,
          disputeDeadline := now + disputePeriod amount, reason := reason,
          status := claimStatus } ∧
    (lockAndCreateClaim s1 sender now commitment provider amount reason
        pa actualPaid pending claimStatus).providerPendingCompensations
      = s1.providerPendingCompensations ∧
    (lockAndCreateClaim s1 sender now commitment provider amount reason
        pa actualPaid pending claimStatus).pendingCompensations
      = s1.pendingCompensations ∧
    (∀ x, x ≠ provider →
      (lockAndCreateClaim s1 sender now commitment provider amount reason
        pa actualPaid pending claimStatus).providers x = s1.providers x) ∧
    ((lockAndCreateClaim s1 sender now commitment provider amount reason
        pa actualPaid pending claimStatus).providers provider).poolBalance
      = (s1.providers provider).poolBalance ∧
    ((lockAndCreateClaim s1 sender now commitment provider amount reason
        pa actualPaid pending claimStatus).providers provider).totalLocked
      = (s1.providers provider).totalLocked +
        (if 0 < actualPaid
         then (if totalRequiredOf actualPaid ≤ pa then totalRequiredOf actualPaid else pa)
         else 0) ∧
    (lockAndCreateClaim s1 sender now commitment provider amount reason
        pa actualPaid pending claimStatus).emergencyPool = s1.emergencyPool ∧
    (lockAndCreateClaim s1 sender now commitment provider amount reason
        pa actualPaid pending claimStatus).platformInsuranceFund
      = s1.platformInsuranceFund ∧
    (lockAndCreateClaim s1 sender now commitment provider amount reason
        pa actualPaid pending claimStatus).transfersOut = s1.transfersOut := by
  unfold lockAndCreateClaim
  split
  · refine ⟨rfl, rfl, rfl, ?_, ?_, ?_, rfl, rfl, rfl⟩
    · intro x hx
      simp [upd, hx]
    · simp [upd]
    · simp [upd]
  · refine ⟨rfl, rfl, rfl, fun x _ => rfl, rfl, ?_, rfl, rfl, rfl⟩
    simp

/-- The common tail of `initiateClaim` preserves the system invariant, for
each of the three availability branches: `s1` is `s` itself or `s` with the
pending compensation recorded, the claim id is fresh, the timestamp positive,
and the scheduled split sums to the requested amount. -/
lemma lockAndCreate_preserves {s s1 : ContractState}
    {sender now commitment provider amount : Nat} {reason : ClaimReason}
    {actualPaid pending : Nat} {claimStatus : ClaimStatus}
    (hinv : SysInv s)
    (hfresh : (s.claims commitment).initiatedAt = 0)
    (hnow : 0 < now)
    (hsum : actualPaid + pending = amount)
    (hrec : s1 = s ∨
      s1 = recordPendingCompensation s commitment sender provider pending now) :
    SysInv (lockAndCreateClaim s1 sender now commitment provider amount reason
      (availableOf (s.providers provider)) actualPaid pending claimStatus) := by
  obtain ⟨hL, hN, hQ, hS⟩ := hinv
  obtain ⟨f1, f2, f3, f4, f5, f6, f7, f8, f9⟩ := lockAndCreate_fields s1 sender now
    commitment provider amount reason (availableOf (s.providers provider))
    actualPaid pending claimStatus
  have hs1p : s1.providers = s.providers := by
    rcases hrec with rfl | rfl
    · rfl
    · rfl
  have hs1c : s1.claims = s.claims := by
    rcases hrec with rfl | rfl
    · rfl
    · rfl
  have hs1q : ∀ a, s1.providerPendingCompensations a = s.providerPendingCompensations a ∨
      (a = provider ∧ s1.providerPendingCompensations a
        = s.providerPendingCompensations provider ++ [commitment]) := by
    intro a
    rcases hrec with rfl | rfl
    · left; rfl
    · by_cases ha : a = provider
      · subst ha
        right
        refine ⟨rfl, ?_⟩
        show (upd _ a _) a = _
        rw [upd_same]
      · left
        show (upd _ provider _) a = _
        rw [upd_ne _ _ _ _ ha]
  have hqfresh : ∀ a, commitment ∉ s.providerPendingCompensations a := by
    intro a hmem
    have := hQ a commitment hmem
    omega
  refine ⟨?_, ?_, ?_, ?_⟩
  · -- lockedLe
    intro x
    by_cases hx : x = provider
    · rw [hx, f5, f6, hs1p]
      have hL' := hL provider
      have hle : (if 0 < actualPaid
          then (if totalRequiredOf actualPaid ≤ availableOf (s.providers provider)
                then totalRequiredOf actualPaid else availableOf (s.providers provider))
          else 0) ≤ availableOf (s.providers provider) := by
        split
        · split <;> omega
        · omega
      have hA : availableOf (s.providers provider)
          ≤ (s.providers provider).poolBalance - (s.providers provider).totalLocked := by
        unfold availableOf
        split <;> omega
      omega
    · rw [f4 x hx, hs1p]
      exact hL x
  · -- queuesNodup
    intro a
    rw [f2]
    rcases hs1q a with he | ⟨_, he⟩
    · rw [he]
      exact hN a
    · rw [he]
      rw [List.nodup_append]
      exact ⟨hN provider, List.nodup_singleton _, by simpa using hqfresh provider⟩
  · -- queueClaimsLive
    intro a c hc
    rw [f1]
    by_cases hcc : c = commitment
    · subst hcc
      rw [upd_same]
      exact hnow
    · rw [upd_ne _ _ _ _ hcc, hs1c]
      rw [f2] at hc
      rcases hs1q a with he | ⟨_, he⟩
      · rw [he] at hc
        exact hQ a c hc
      · rw [he] at hc
        rcases List.mem_append.mp hc with hmem | hmem
        · exact hQ provider c hmem
        · simp at hmem
          exact absurd hmem hcc
  · -- claimSum
    intro c hlive
    rw [f1] at hlive ⊢
    by_cases hcc : c = commitment
    · subst hcc
      rw [upd_same]
      exact hsum
    · rw [upd_ne _ _ _ _ hcc, hs1c] at hlive ⊢
      exact hS c hlive

/-- `initiateClaim` preserves the system invariant (for a positive
timestamp, as on any real chain). -/
lemma initiate_preserves {s s' : ContractState}
    {sender now commitment provider amount : Nat} {reason : ClaimReason}
    (hinv : SysInv s) (hnow : 0 < now)
    (h : initiateClaim s sender now commitment provider amount reason = some s') :
    SysInv s' := by
  simp only [initiateClaim] at h
  split at h
  · cases h
  · rename_i hmin
    split at h
    · cases h
    · split at h
      · cases h
      · rename_i hfresh0
        split at h
        · cases h
        · have hfresh : (s.claims commitment).initiatedAt = 0 := by omega
          split at h
          · cases h
            exact lockAndCreate_preserves hinv hfresh hnow (by omega) (Or.inl rfl)
          · rename_i hfull hsome
            split at h
            · cases h
              refine lockAndCreate_preserves hinv hfresh hnow (by omega) (Or.inr rfl)
            · cases h
              refine lockAndCreate_preserves hinv hfresh hnow ?_ (Or.inr rfl)
              rename_i hzero
              omega

/-- One successful public operation of the contract, with arbitrary caller,
timestamp and arguments (timestamps are positive, as on any real chain).
Reverting calls leave no state change and are therefore not steps. -/
inductive Step : ContractState → ContractState → Prop where
  | register {s s' : ContractState} (a now amt : Nat)
      (h : registerOrReactivate s a now amt = some s') : Step s s'
  | deposit {s s' : ContractState} (a amt : Nat)
      (h : depositAdditional s a amt = some s') : Step s s'
  | withdrawPart {s s' : ContractState} (a amt : Nat)
      (h : withdraw s a amt = some s') : Step s s'
  | withdrawAll {s s' : ContractState} (a : Nat)
      (h : withdrawAllAndDeactivate s a = some s') : Step s s'
  | initiate {s s' : ContractState} (sender now cid provider amount : Nat)
      (reason : ClaimReason) (hnow : 0 < now)
      (h : initiateClaim s sender now cid provider amount reason = some s') : Step s s'
  | execute {s s' : ContractState} (now cid : Nat)
      (h : executeClaim s now cid = some s') : Step s s'
  | dispute {s s' : ContractState} (sender now cid : Nat)
      (h : disputeClaim s sender now cid = some s') : Step s s'
  | compensate {s s' : ContractState} (p : Addr)
      (h : processProportionalCompensations s p = some s') : Step s s'

/-- States reachable from the freshly deployed contract by public
operations. -/
inductive Reachable : ContractState → Prop where
  | init : Reachable initialState
  | step {s s' : ContractState} (hr : Reachable s) (hs : Step s s') : Reachable s'

/-- Every step preserves the system invariant. -/
lemma step_preserves {s s' : ContractState} (hinv : SysInv s) (hs : Step s s') :
    SysInv s' := by
  cases hs with
  | register a now amt h => exact register_preserves hinv h
  | deposit a amt h => exact deposit_preserves hinv h
  | withdrawPart a amt h => exact withdraw_preserves hinv h
  | withdrawAll a h => exact withdrawAll_preserves hinv h
  | initiate sender now cid provider amount reason hnow h =>
      exact initiate_preserves hinv hnow h
  | execute now cid h => exact execute_preserves hinv h
  | dispute sender now cid h => exact dispute_preserves hinv h
  | compensate p h => exact process_preserves hinv h

/-- The invariant holds in the initial state. -/
lemma SysInv_initial : SysInv initialState := by
  refine ⟨?_, ?_, ?_, ?_⟩
  · intro a
    exact Nat.le_refl 0
  · intro a
    exact List.nodup_nil
  · intro a c hc
    cases hc
  · intro c hc
    simp [initialState, claim0] at hc

/-- Every reachable state satisfies the system invariant. -/
lemma reachable_sysInv {s : ContractState} (hr : Reachable s) : SysInv s := by
  induction hr with
  | init => exact SysInv_initial
  | step _ hs ih => exact step_preserves ih hs

/-- C1: starting from the initial empty state, after every public operation
(`registerOrReactivate`, `depositAdditional`, `withdraw`,
`withdrawAllAndDeactivate`, `initiateClaim`, `executeClaim`, `disputeClaim`)
and every internal proportional-compensation distribution — that is, in
every `Reachable` state — every provider record satisfies `0 ≤ poolBalance`
(balances are `Nat`, mirroring Solidity's reverting `uint256`) and
`totalLocked ≤ poolBalance`. -/
theorem C1_pool_invariant (s : ContractState) (hr : Reachable s) (a : Addr) :
    0 ≤ (s.providers a).poolBalance ∧
    (s.providers a).totalLocked ≤ (s.providers a).poolBalance :=
  ⟨Nat.zero_le _, (reachable_sysInv hr).1 a⟩

/-- Witness for C1 at a concrete reachable state: provider 1 registered with
10 USDC at time 1, then a claim of 4 USDC initiated against it. -/
theorem C1_pool_invariant_witness :
    0 ≤ (((initiateClaim ((registerOrReactivate initialState 1 1 10000000).getD
        initialState) 2 1 7 1 4000000 ClaimReason.NotDelivered).getD
        initialState).providers 1).poolBalance ∧
    (((initiateClaim ((registerOrReactivate initialState 1 1 10000000).getD
        initialState) 2 1 7 1 4000000 ClaimReason.NotDelivered).getD
        initialState).providers 1).totalLocked ≤
    (((initiateClaim ((registerOrReactivate initialState 1 1 10000000).getD
        initialState) 2 1 7 1 4000000 ClaimReason.NotDelivered).getD
        initialState).providers 1).poolBalance :=
  C1_pool_invariant _
    (Reachable.step (Reachable.step Reachable.init (Step.register 1 1 10000000 rfl))
      (Step.initiate 2 1 7 1 4000000 ClaimReason.NotDelivered (by decide) rfl))
    1

/-- C2: in every reachable state, every claim record that exists
(`initiatedAt > 0`) satisfies `paidAmount + pendingAmount = requestedAmount`:
`initiateClaim` establishes it, and `executeClaim`, `disputeClaim` and the
proportional-compensation distribution preserve it. -/
theorem C2_claim_sum_invariant (s : ContractState) (hr : Reachable s)
    (c : Commitment) (hc : 0 < (s.claims c).initiatedAt) :
    (s.claims c).paidAmount + (s.claims c).pendingAmount
      = (s.claims c).requestedAmount :=
  (reachable_sysInv hr).2.2.2 c hc

/-- Witness for C2 at a concrete reachable state with one existing claim. -/
theorem C2_claim_sum_invariant_witness :
    0 < (((initiateClaim ((registerOrReactivate initialState 1 1 10000000).getD
        initialState) 2 1 7 1 4000000 ClaimReason.NotDelivered).getD
        initialState).claims 7).initiatedAt ∧
    (((initiateClaim ((registerOrReactivate initialState 1 1 10000000).getD
        initialState) 2 1 7 1 4000000 ClaimReason.NotDelivered).getD
        initialState).claims 7).paidAmount +
    (((initiateClaim ((registerOrReactivate initialState 1 1 10000000).getD
        initialState) 2 1 7 1 4000000 ClaimReason.NotDelivered).getD
        initialState).claims 7).pendingAmount =
    (((initiateClaim ((registerOrReactivate initialState 1 1 10000000).getD
        initialState) 2 1 7 1 4000000 ClaimReason.NotDelivered).getD
        initialState).claims 7).requestedAmount :=
  ⟨by decide,
   C2_claim_sum_invariant _
     (Reachable.step (Reachable.step Reachable.init (Step.register 1 1 10000000 rfl))
       (Step.initiate 2 1 7 1 4000000 ClaimReason.NotDelivered (by decide) rfl))
     7 (by decide)⟩

/-- C3: the three-way availability decision of `initiateClaim`.  For a valid
amount, a fresh claim id and an active provider, with
`available = (poolBalance - totalLocked ⊔ 0) + emergencyPool + platformFund`:
full payment with status `Initiated` and no compensation entry when
`available ≥ amount`; payment of exactly `available` with the remainder
pending, a recorded entry and status `Partial` when `0 < available < amount`;
zero payment, the whole amount pending, a recorded entry and status `Partial`
when `available = 0`. -/
theorem C3_initiate_decision (s s' : ContractState)
    (sender now cid provider amount : Nat) (reason : ClaimReason)
    (hmin : MIN_CLAIM_AMOUNT ≤ amount) (hmax : amount ≤ MAX_CLAIM_AMOUNT)
    (hfresh : (s.claims cid).initiatedAt = 0)
    (hactive : (s.providers provider).isActive = true)
    (h : initiateClaim s sender now cid provider amount reason = some s') :
    (amount ≤ availableOf (s.providers provider) + s.emergencyPool
        + s.platformInsuranceFund →
      s'.claims cid =
        { client := sender, provider := provider, requestedAmount := amount,
          paidAmount := amount, pendingAmount := 0, initiatedAt := now,
          disputeDeadline := now + disputePeriod amount, reason := reason,
          status := ClaimStatus.Initiated } ∧
      s'.providerPendingCompensations provider
        = s.providerPendingCompensations provider ∧
      s'.pendingCompensations cid = s.pendingCompensations cid) ∧
    (0 < availableOf (s.providers provider) + s.emergencyPool
        + s.platformInsuranceFund →
     availableOf (s.providers provider) + s.emergencyPool
        + s.platformInsuranceFund < amount →
      s'.claims cid =
        { client := sender, provider := provider, requestedAmount := amount,
          paidAmount := availableOf (s.providers provider) + s.emergencyPool
            + s.platformInsuranceFund,
          pendingAmount := amount - (availableOf (s.providers provider)
            + s.emergencyPool + s.platformInsuranceFund),
          initiatedAt := now, disputeDeadline := now + disputePeriod amount,
          reason := reason, status := ClaimStatus.Partial } ∧
      s'.providerPendingCompensations provider
        = s.providerPendingCompensations provider ++ [cid] ∧
      s'.pendingCompensations cid =
        { commitment := cid, client := sender,
          amount := amount - (availableOf (s.providers provider)
            + s.emergencyPool + s.platformInsuranceFund),
          createdAt := now, isPaid := false }) ∧
    (availableOf (s.providers provider) + s.emergencyPool
        + s.platformInsuranceFund = 0 →
      s'.claims cid =
        { client := sender, provider := provider, requestedAmount := amount,
          paidAmount := 0, pendingAmount := amount, initiatedAt := now,
          disputeDeadline := now + disputePeriod amount, reason := reason,
          status := ClaimStatus.Partial } ∧
      s'.providerPendingCompensations provider
        = s.providerPendingCompensations provider ++ [cid] ∧
      s'.pendingCompensations cid =
        { commitment := cid, client := sender, amount := amount,
          createdAt := now, isPaid := false }) := by
  simp only [initiateClaim] at h
  rw [if_neg (by omega)] at h
  rw [if_neg (by omega)] at h
  rw [if_neg (by omega)] at h
  rw [if_neg (by simp [hactive])] at h
  refine ⟨?_, ?_, ?_⟩
  · intro hfull
    rw [if_pos hfull] at h
    cases h
    obtain ⟨f1, f2, f3, _⟩ := lockAndCreate_fields s sender now cid provider amount reason
      (availableOf (s.providers provider)) amount 0 ClaimStatus.Initiated
    refine ⟨?_, ?_, ?_⟩
    · rw [f1, upd_same]
    · rw [f2]
    · rw [f3]
  · intro hpos hlt
    rw [if_neg (by omega), if_pos hpos] at h
    cases h
    obtain ⟨f1, f2, f3, _⟩ := lockAndCreate_fields
      (recordPendingCompensation s cid sender provider
        (amount - (availableOf (s.providers provider) + s.emergencyPool
          + s.platformInsuranceFund)) now)
      sender now cid provider amount reason
      (availableOf (s.providers provider))
      (availableOf (s.providers provider) + s.emergencyPool + s.platformInsuranceFund)
      (amount - (availableOf (s.providers provider) + s.emergencyPool
        + s.platformInsuranceFund)) ClaimStatus.Partial
    refine ⟨?_, ?_, ?_⟩
    · rw [f1, upd_same]
    · rw [f2]
      show (upd _ provider _) provider = _
      rw [upd_same]
    · rw [f3]
      show (upd _ cid _) cid = _
      rw [upd_same]
  · intro hzero
    have hm : (100000 : Nat) ≤ amount := hmin
    rw [if_neg (by omega), if_neg (by omega)] at h
    cases h
    obtain ⟨f1, f2, f3, _⟩ := lockAndCreate_fields
      (recordPendingCompensation s cid sender provider amount now)
      sender now cid provider amount reason
      (availableOf (s.providers provider)) 0 amount ClaimStatus.Partial
    refine ⟨?_, ?_, ?_⟩
    · rw [f1, upd_same]
    · rw [f2]
      show (upd _ provider _) provider = _
      rw [upd_same]
    · rw [f3]
      show (upd _ cid _) cid = _
      rw [upd_same]

/-- Witness for C3: provider 1 with 10 USDC pool, claim of 12 USDC — the
partial branch applies concretely. -/
theorem C3_initiate_decision_witness :
    MIN_CLAIM_AMOUNT ≤ 12000000 ∧ 12000000 ≤ MAX_CLAIM_AMOUNT ∧
    ((((registerOrReactivate initialState 1 1 10000000).getD initialState).claims 7).initiatedAt
      = 0) ∧
    ((((registerOrReactivate initialState 1 1 10000000).getD initialState).providers 1).isActive
      = true) ∧
    ((((initiateClaim ((registerOrReactivate initialState 1 1 10000000).getD initialState)
        2 1 7 1 12000000 ClaimReason.NotDelivered).getD initialState).claims 7).paidAmount
      = 10000000) := by
  refine ⟨by decide, by decide, by decide, by decide, ?_⟩
  have h3 := C3_initiate_decision
    ((registerOrReactivate initialState 1 1 10000000).getD initialState)
    ((initiateClaim ((registerOrReactivate initialState 1 1 10000000).getD initialState)
        2 1 7 1 12000000 ClaimReason.NotDelivered).getD initialState)
    2 1 7 1 12000000 ClaimReason.NotDelivered
    (by decide) (by decide) (by decide) (by decide) rfl
  have := (h3.2.1 (by decide) (by decide)).1
  rw [this]
  decide

/-- C7: a successful `executeClaim` on a claim with scheduled
`paidAmount = P > 0` deducts `required = P + penalty(P) + platformFee(P)`
first from the provider's pool (capped at that balance: `fromProviderOf`),
then the shortfall from `emergencyPool`, then from `platformInsuranceFund`;
credits half the penalty to `emergencyPool` and the other (floored) half plus
the platform fee to `platformInsuranceFund`; transfers exactly `P` to the
client; and sets status `Executed` with a `successfulServices` bump when
`pendingAmount = 0`, else leaves status `Partial`. -/
theorem C7_execute_success (s s' : ContractState) (now cid : Nat)
    (hP : 0 < (s.claims cid).paidAmount)
    (h : executeClaim s now cid = some s') :
    (s'.providers (s.claims cid).provider).poolBalance
      = (s.providers (s.claims cid).provider).poolBalance -
        fromProviderOf s (s.claims cid).provider (s.claims cid).paidAmount ∧
    s'.emergencyPool
      = (if shortfallOf s (s.claims cid).provider (s.claims cid).paidAmount
            ≤ s.emergencyPool
         then s.emergencyPool -
           shortfallOf s (s.claims cid).provider (s.claims cid).paidAmount
         else 0) + penaltyAmountOf (s.claims cid).paidAmount / 2 ∧
    s'.platformInsuranceFund
      = (if shortfallOf s (s.claims cid).provider (s.claims cid).paidAmount
            ≤ s.emergencyPool
         then s.platformInsuranceFund
         else s.platformInsuranceFund -
           (shortfallOf s (s.claims cid).provider (s.claims cid).paidAmount
             - s.emergencyPool))
        + penaltyAmountOf (s.claims cid).paidAmount / 2
        + platformFeeOf (s.claims cid).paidAmount ∧
    s'.transfersOut
      = s.transfersOut ++ [((s.claims cid).client, (s.claims cid).paidAmount)] ∧
    s'.claims = upd s.claims cid { s.claims cid with
      status := (if (s.claims cid).pendingAmount = 0
        then ClaimStatus.Executed else ClaimStatus.Partial) } ∧
    (s'.providers (s.claims cid).provider).successfulServices
      = (s.providers (s.claims cid).provider).successfulServices
        + (if (s.claims cid).pendingAmount = 0 then 1 else 0) := by
  obtain ⟨p1, _, _, p4, p5, p6, p7, p8, _, _⟩ := executeClaim_spec_pos h hP
  exact ⟨p1, p4, p5, p6, p7, p8⟩

/-- Witness state for C7: provider 1 registered with 20 USDC. -/
def c7reg : ContractState :=
  (registerOrReactivate initialState 1 1 20000000).getD initialState

/-- Witness state for C7: a fully-funded claim of 5 USDC initiated. -/
def c7init : ContractState :=
  (initiateClaim c7reg 2 1 31 1 5000000 ClaimReason.NotDelivered).getD c7reg

/-- Witness state for C7: the claim executed after its dispute window. -/
def c7exec : ContractState := (executeClaim c7init 62 31).getD c7init

/-- Witness for C7: concrete execution transfers exactly the scheduled
amount to the client. -/
theorem C7_execute_success_witness :
    0 < ((c7init).claims 31).paidAmount ∧
    c7exec.transfersOut = c7init.transfersOut
      ++ [(((c7init).claims 31).client, ((c7init).claims 31).paidAmount)] := by
  have h7 := C7_execute_success c7init c7exec 62 31 (by decide) rfl
  exact ⟨by decide, h7.2.2.2.1⟩

/-- C8 (amended): a successful `disputeClaim` (which requires the caller to
be the claim's named provider, the deadline not passed, and status
`Initiated` or `Partial`) sets the status to `Disputed`, transfers no funds,
leaves `poolBalance`, `emergencyPool`, `platformInsuranceFund` and all claim
amounts unchanged, and does not remove the `PendingCompensation` entry; but
it decreases `totalLocked` by `min(totalRequiredOf paidAmount, totalLocked)`
(recomputed, zero when nothing was scheduled), which can exceed the amount
actually locked for this claim at initiation. -/
theorem C8_dispute_amended (s s' : ContractState) (sender now cid : Nat)
    (h : disputeClaim s sender now cid = some s') :
    s'.claims = upd s.claims cid { s.claims cid with status := ClaimStatus.Disputed } ∧
    (s'.providers sender).poolBalance = (s.providers sender).poolBalance ∧
    (s'.providers sender).totalLocked =
      (if 0 < (s.claims cid).paidAmount then
        (if totalRequiredOf (s.claims cid).paidAmount ≤ (s.providers sender).totalLocked
         then (s.providers sender).totalLocked - totalRequiredOf (s.claims cid).paidAmount
         else 0)
       else (s.providers sender).totalLocked) ∧
    s'.emergencyPool = s.emergencyPool ∧
    s'.platformInsuranceFund = s.platformInsuranceFund ∧
    s'.transfersOut = s.transfersOut ∧
    s'.pendingCompensations = s.pendingCompensations ∧
    s'.providerPendingCompensations = s.providerPendingCompensations := by
  obtain ⟨d1, _, d3, _, _, d6, d7, d8, _, d10, d11, d12, _⟩ := disputeClaim_spec h
  exact ⟨d1, d3, d6, d7, d8, d10, d11, d12⟩

/-- C8 pipeline: provider 1 registers 30 USDC. -/
def c8s1 : ContractState :=
  (registerOrReactivate initialState 1 1 30000000).getD initialState

/-- C8 pipeline: the owner funds the emergency pool with 10 USDC. -/
def c8s2 : ContractState := (fundEmergencyPool c8s1 0 10000000).getD c8s1

/-- C8 pipeline: claim 21 of 2 USDC is initiated (locks 2.22 USDC). -/
def c8s3 : ContractState :=
  (initiateClaim c8s2 2 1 21 1 2000000 ClaimReason.NotDelivered).getD c8s2

/-- C8 pipeline: claim 22 of 28 USDC is initiated; its full required lock of
31.08 USDC exceeds the remaining 27.78 USDC, so only 27.78 USDC is locked. -/
def c8s4 : ContractState :=
  (initiateClaim c8s3 2 1 22 1 28000000 ClaimReason.NotDelivered).getD c8s3

/-- C8 pipeline: provider 1 disputes claim 22 before its deadline. -/
def c8s5 : ContractState := (disputeClaim c8s4 1 2 22).getD c8s4

/-- C8 counterexample: at initiation claim 22 locked exactly 27.78 USDC, but
the dispute releases all 30 USDC of lock (the recomputed 31.08 exceeds the
total lock, which is zeroed) — not "exactly the amount that was locked for
this claim at initiation". -/
theorem C8_dispute_counterexample :
    disputeClaim c8s4 1 2 22 = some c8s5 ∧
    (c8s4.providers 1).totalLocked - (c8s3.providers 1).totalLocked = 27780000 ∧
    (c8s4.providers 1).totalLocked = 30000000 ∧
    (c8s5.providers 1).totalLocked = 0 ∧
    (c8s4.providers 1).totalLocked - (c8s5.providers 1).totalLocked
      ≠ (c8s4.providers 1).totalLocked - (c8s3.providers 1).totalLocked :=
  ⟨rfl, by decide, by decide, by decide, by decide⟩

/-- Witness for the amended C8 at the concrete pipeline: no transfer
happened and the compensation maps are untouched. -/
theorem C8_dispute_amended_witness :
    c8s5.transfersOut = c8s4.transfersOut ∧
    c8s5.pendingCompensations = c8s4.pendingCompensations ∧
    c8s5.emergencyPool = c8s4.emergencyPool := by
  have h8 := C8_dispute_amended c8s4 c8s5 1 2 22 rfl
  exact ⟨h8.2.2.2.2.2.1, h8.2.2.2.2.2.2.1, h8.2.2.2.1⟩

/-- C9 (amended): `depositAdditional` applies no minimum-amount floor at
all — it requires only an active provider and the `MAX_POOL_BALANCE`
ceiling, so for an active provider (with no pending queue, so the
distributor is not triggered) a deposit below `MIN_POOL_BALANCE` succeeds;
`registerOrReactivate`, by contrast, rejects any amount below
`MIN_POOL_BALANCE`. -/
theorem C9_deposit_no_floor (s : ContractState) (a : Addr) (amt : Nat)
    (hact : (s.providers a).isActive = true)
    (hq : s.providerPendingCompensations a = [])
    (hmax : (s.providers a).poolBalance + amt ≤ MAX_POOL_BALANCE) :
    (depositAdditional s a amt).isSome = true ∧
    (∀ (s2 : ContractState) (now amt2 : Nat), amt2 < MIN_POOL_BALANCE →
      registerOrReactivate s2 a now amt2 = none) := by
  constructor
  · simp only [depositAdditional]
    rw [if_neg (by simp [hact]), if_neg (by omega)]
    split
    · rename_i hcon
      exact absurd hq (by simpa using hcon)
    · rfl
  · intro s2 now amt2 hlt
    simp only [registerOrReactivate]
    rw [if_pos hlt]

/-- C9 pipeline: an active provider with a 20 USDC pool. -/
def c9s1 : ContractState :=
  (registerOrReactivate initialState 1 1 20000000).getD initialState

/-- C9 counterexample: the claim says a deposit below the minimum collateral
floor fails with a validation error, but a deposit of 1 micro-USDC (far below
`MIN_POOL_BALANCE`) by an active provider succeeds. -/
theorem C9_deposit_floor_counterexample :
    (1 : Nat) < MIN_POOL_BALANCE ∧
    (c9s1.providers 1).isActive = true ∧
    (depositAdditional c9s1 1 1).isSome = true :=
  ⟨by decide, by decide, by decide⟩

/-- Witness for the amended C9 at the concrete provider state. -/
theorem C9_deposit_no_floor_witness :
    (c9s1.providers 1).isActive = true ∧
    c9s1.providerPendingCompensations 1 = [] ∧
    (c9s1.providers 1).poolBalance + 1 ≤ MAX_POOL_BALANCE ∧
    (depositAdditional c9s1 1 1).isSome = true :=
  ⟨by decide, by decide, by decide,
   (C9_deposit_no_floor c9s1 1 1 (by decide) (by decide) (by decide)).1⟩

/-- C10 pipeline: provider 1 registers 10 USDC. -/
def c10s1 : ContractState :=
  (registerOrReactivate initialState 1 1 10000000).getD initialState

/-- C10 pipeline: claim 7 of 12 USDC is initiated — only 10 USDC is
available, so 10 USDC is scheduled (`Partial`, 2 USDC pending). -/
def c10s2 : ContractState :=
  (initiateClaim c10s1 2 1 7 1 12000000 ClaimReason.NotDelivered).getD c10s1

/-- C10 pipeline: the owner funds the emergency pool with 30 USDC. -/
def c10s3 : ContractState := (fundEmergencyPool c10s2 0 30000000).getD c10s2

/-- C10 pipeline: first execution after the deadline pays 10 USDC. -/
def c10s4 : ContractState := (executeClaim c10s3 302 7).getD c10s3

/-- C10 pipeline: second execution of the same claim pays 10 USDC again. -/
def c10s5 : ContractState := (executeClaim c10s4 303 7).getD c10s4

/-- C10: the code double-pays.  After a successful `executeClaim` on a
still-`Partial` claim, a second `executeClaim` on the same claim does not
fail: it succeeds and transfers the scheduled amount a second time (20 USDC
in total against a 12 USDC request), because the status stays `Partial` and
`paidAmount` is never cleared. -/
theorem C10_double_execution :
    executeClaim c10s3 302 7 = some c10s4 ∧
    executeClaim c10s4 303 7 = some c10s5 ∧
    c10s5.transfersOut = [(2, 10000000), (2, 10000000)] ∧
    (c10s5.claims 7).requestedAmount = 12000000 ∧
    (c10s5.claims 7).paidAmount = 10000000 ∧
    (c10s5.claims 7).status = ClaimStatus.Partial :=
  ⟨rfl, rfl, by decide, by decide, by decide, by decide⟩

/-- C6 pipeline: provider 1 registers 10 USDC (10.00 available, emergency
pool and platform fund empty). -/
def c6s1 : ContractState :=
  (registerOrReactivate initialState 1 1 10000000).getD initialState

/-- C6 pipeline: first claim of 4 USDC. -/
def c6s2 : ContractState :=
  (initiateClaim c6s1 2 1 11 1 4000000 ClaimReason.NotDelivered).getD c6s1

/-- C6 pipeline: second claim of 4 USDC. -/
def c6s3 : ContractState :=
  (initiateClaim c6s2 2 1 12 1 4000000 ClaimReason.NotDelivered).getD c6s2

/-- C6 pipeline: third claim of 4 USDC. -/
def c6s4 : ContractState :=
  (initiateClaim c6s3 2 1 13 1 4000000 ClaimReason.NotDelivered).getD c6s3

/-- C6 counterexample: the first of the three 4-USDC claims is scheduled in
full (4.00 paid, 0 pending), not for 3.33 with 0.67 pending as the claim
asserts for every one of them. -/
theorem C6_counterexample :
    initiateClaim c6s1 2 1 11 1 4000000 ClaimReason.NotDelivered = some c6s2 ∧
    initiateClaim c6s2 2 1 12 1 4000000 ClaimReason.NotDelivered = some c6s3 ∧
    initiateClaim c6s3 2 1 13 1 4000000 ClaimReason.NotDelivered = some c6s4 ∧
    (c6s4.claims 11).paidAmount = 4000000 ∧
    (c6s4.claims 11).pendingAmount = 0 :=
  ⟨rfl, rfl, rfl, by decide, by decide⟩

/-- C6 (amended): allocation at initiation is sequential, not proportional.
With 10.00 available and three 4.00 claims initiated in turn, the first two
are scheduled in full (each locking 4.44), and the third gets exactly the
remaining available 1.12 with 2.88 pending and status `Partial`. -/
theorem C6_sequential_allocation :
    (c6s4.claims 11).paidAmount = 4000000 ∧
    (c6s4.claims 11).pendingAmount = 0 ∧
    (c6s4.claims 11).status = ClaimStatus.Initiated ∧
    (c6s4.claims 12).paidAmount = 4000000 ∧
    (c6s4.claims 12).pendingAmount = 0 ∧
    (c6s4.claims 12).status = ClaimStatus.Initiated ∧
    (c6s4.claims 13).paidAmount = 1120000 ∧
    (c6s4.claims 13).pendingAmount = 2880000 ∧
    (c6s4.claims 13).status = ClaimStatus.Partial ∧
    (c6s4.providers 1).totalLocked = 10000000 :=
  ⟨by decide, by decide, by decide, by decide, by decide, by decide,
   by decide, by decide, by decide, by decide⟩

/-- C5 state: provider 1 has 8 liquid units and three unsettled remainders
of 1, 1 and 8 units (claims 1, 2, 3), satisfying all system invariants. -/
def c5q0 : ContractState :=
  { providers := upd (fun _ => pd0) 1 { pd0 with isActive := true, poolBalance := 8 },
    claims := upd (upd (upd (fun _ => claim0)
      1 { claim0 with client := 5, provider := 1, requestedAmount := 1,
                      pendingAmount := 1, initiatedAt := 1,
                      status := ClaimStatus.Partial })
      2 { claim0 with client := 5, provider := 1, requestedAmount := 1,
                      pendingAmount := 1, initiatedAt := 1,
                      status := ClaimStatus.Partial })
      3 { claim0 with client := 5, provider := 1, requestedAmount := 8,
                      pendingAmount := 8, initiatedAt := 1,
                      status := ClaimStatus.Partial },
    providerPendingCompensations := upd (fun _ => []) 1 [1, 2, 3],
    pendingCompensations := upd (upd (upd (fun _ => comp0)
      1 { comp0 with commitment := 1, client := 5, amount := 1, createdAt := 1 })
      2 { comp0 with commitment := 2, client := 5, amount := 1, createdAt := 1 })
      3 { comp0 with commitment := 3, client := 5, amount := 8, createdAt := 1 },
    totalProviderPools := 8, emergencyPool := 0, platformInsuranceFund := 0,
    totalClaimsInitiated := 3, totalClaimsExecuted := 0,
    totalPendingCompensations := 10, owner := 0, transfersOut := [] }

/-- C5: the state after the first distributor run on `c5q0`. -/
def c5q1 : ContractState := (processProportionalCompensations c5q0 1).getD c5q0

/-- C5: the state after the second distributor run, no funds added between. -/
def c5q2 : ContractState := (processProportionalCompensations c5q1 1).getD c5q1

/-- C5 counterexample: the distributor is not idempotent.  On `c5q0`
(available 8, remainders 1+1+8 = 10) the first run pays 6 to claim 3
(floor(8·8/10)) and nothing to claims 1 and 2 (floor(8·1/10) = 0), leaving
2 available; the second run, with no funds added in between, pays 1 more to
claim 3 (floor(2·2/4)) and changes the pool again. -/
theorem C5_counterexample :
    processProportionalCompensations c5q0 1 = some c5q1 ∧
    processProportionalCompensations c5q1 1 = some c5q2 ∧
    (c5q1.claims 3).paidAmount = 6 ∧
    (c5q1.providers 1).poolBalance = 2 ∧
    (c5q2.claims 3).paidAmount = 7 ∧
    (c5q2.providers 1).poolBalance = 1 :=
  ⟨rfl, rfl, by decide, by decide, by decide, by decide⟩

/-- C5 (amended): the distributor is a no-op when the provider's queue is
empty or its available funds are zero; but a repeated invocation with no new
funds is not in general a no-op, because floor rounding can leave part of
the available funds undistributed for a later run (see the counterexample). -/
theorem C5_distributor_noop (s : ContractState) (p : Addr)
    (h : s.providerPendingCompensations p = [] ∨ availableOf (s.providers p) = 0) :
    processProportionalCompensations s p = some s := by
  simp only [processProportionalCompensations]
  rcases h with h | h
  · rw [h]
    simp
  · by_cases hl : (s.providerPendingCompensations p).length = 0
    · rw [if_pos hl]
    · rw [if_neg hl, if_pos h]

/-- Witness for the amended C5 at the freshly deployed state. -/
theorem C5_distributor_noop_witness :
    (initialState.providerPendingCompensations 0 = [] ∨
      availableOf (initialState.providers 0) = 0) ∧
    processProportionalCompensations initialState 0 = some initialState :=
  ⟨Or.inl rfl, C5_distributor_noop initialState 0 (Or.inl rfl)⟩

/-- Exact per-entry payments of the distributor loop over a duplicate-free
queue, and frame for entries outside the queue. -/
lemma compLoop_paid (p : Addr) (A T : Nat) (l : List Commitment) :
    ∀ s s' : ContractState, l.Nodup → compLoop p A T l s = some s' →
      (∀ c ∈ l, (s'.claims c).paidAmount = (s.claims c).paidAmount + payTo s A T c) ∧
      (∀ c, c ∉ l → s'.claims c = s.claims c ∧
        s'.pendingCompensations c = s.pendingCompensations c) := by
  induction l with
  | nil =>
    intro s s' _ h
    simp only [compLoop] at h
    cases h
    exact ⟨fun c hc => absurd hc (List.not_mem_nil c), fun c _ => ⟨rfl, rfl⟩⟩
  | cons c rest ih =>
    intro s s' hnd h
    have hcr : c ∉ rest := (List.nodup_cons.mp hnd).1
    have hndr : rest.Nodup := (List.nodup_cons.mp hnd).2
    simp only [compLoop] at h
    split at h
    · rename_i hv
      split at h
      · rename_i hpos
        split at h
        · cases h
        · rename_i s1 heq
          obtain ⟨_, _, _, _, hs1⟩ := paymentStep_spec heq
          obtain ⟨ih1, ih2⟩ := ih _ _ hndr h
          have hclaims1 : ∀ x, x ≠ c → s1.claims x = s.claims x := by
            intro x hx
            rw [hs1]
            simp [upd, hx]
          have hcomp1 : ∀ x, x ≠ c →
              s1.pendingCompensations x = s.pendingCompensations x := by
            intro x hx
            rw [hs1]
            simp [upd, hx]
          have hpaid1 : (s1.claims c).paidAmount
              = (s.claims c).paidAmount + payTo s A T c := by
            rw [hs1]
            simp [upd]
          constructor
          · intro x hx
            rcases List.mem_cons.mp hx with rfl | hxr
            · rw [(ih2 x hcr).1, hpaid1]
            · have hxc : x ≠ c := fun hh => hcr (hh ▸ hxr)
              rw [ih1 x hxr, hclaims1 x hxc]
              congr 1
              simp [payTo, hcomp1 x hxc]
          · intro x hx
            have hxc : x ≠ c := fun hh => hx (hh ▸ List.mem_cons_self c rest)
            have hxr : x ∉ rest := fun hh => hx (List.mem_cons_of_mem c hh)
            obtain ⟨e1, e2⟩ := ih2 x hxr
            exact ⟨by rw [e1, hclaims1 x hxc], by rw [e2, hcomp1 x hxc]⟩
      · rename_i hpos
        obtain ⟨ih1, ih2⟩ := ih _ _ hndr h
        have hz : payTo s A T c = 0 := by omega
        constructor
        · intro x hx
          rcases List.mem_cons.mp hx with rfl | hxr
          · rw [(ih2 x hcr).1, hz]
            omega
          · exact ih1 x hxr
        · intro x hx
          exact ih2 x (fun hh => hx (List.mem_cons_of_mem c hh))
    · rename_i hv
      obtain ⟨ih1, ih2⟩ := ih _ _ hndr h
      have hz : payTo s A T c = 0 := by simp [payTo, hv]
      constructor
      · intro x hx
        rcases List.mem_cons.mp hx with rfl | hxr
        · rw [(ih2 x hcr).1, hz]
          omega
        · exact ih1 x hxr
      · intro x hx
        exact ih2 x (fun hh => hx (List.mem_cons_of_mem c hh))

/-- The distributor's per-entry payment formula and pool accounting at the
level of `processProportionalCompensations`, when it actually distributes. -/
lemma process_paid_formula {s s' : ContractState} {p : Addr}
    (hnd : (s.providerPendingCompensations p).Nodup)
    (hApos : 0 < availableOf (s.providers p))
    (hTpos : 0 < totalPendingOf s (s.providerPendingCompensations p))
    (hrun : processProportionalCompensations s p = some s') :
    (∀ c ∈ s.providerPendingCompensations p,
      (s'.claims c).paidAmount = (s.claims c).paidAmount +
        payTo s (availableOf (s.providers p))
          (totalPendingOf s (s.providerPendingCompensations p)) c) ∧
    (s'.providers p).poolBalance +
      ((s.providerPendingCompensations p).map
        (payTo s (availableOf (s.providers p))
          (totalPendingOf s (s.providerPendingCompensations p)))).sum
      = (s.providers p).poolBalance := by
  have hlen : ¬(s.providerPendingCompensations p).length = 0 := by
    intro h0
    rw [List.length_eq_zero] at h0
    rw [h0] at hTpos
    simp [totalPendingOf] at hTpos
  simp only [processProportionalCompensations] at hrun
  rw [if_neg hlen, if_neg (by omega), if_neg (by omega)] at hrun
  split at hrun
  · cases hrun
  · rename_i s1 heq
    cases hrun
    obtain ⟨hp1, _⟩ := compLoop_paid p _ _ _ s s1 hnd heq
    have hpool := compLoop_pool p _ _ _ s s1 hnd heq
    exact ⟨hp1, hpool⟩

/-- C4: in one proportional-compensation distribution for a provider whose
queue holds unsettled remainders `r_1..r_n` summing to `T`, with available
funds `A`, `0 < A < T`: each entry is paid exactly
`min(r_i, floor(A*r_i/T))`, which equals `floor(A*r_i/T)` since `A < T`; the
sum of all payments is at most `A`; and each payment depends only on the
remainder sizes, not on the order the entries were enqueued — any
permutation of the queue produces the same payment for every entry. -/
theorem C4_proportional_payments (s s' : ContractState) (p : Addr) (A T : Nat)
    (hnd : (s.providerPendingCompensations p).Nodup)
    (hvalid : ∀ c ∈ s.providerPendingCompensations p,
      (s.pendingCompensations c).isPaid = false ∧ 0 < (s.pendingCompensations c).amount)
    (hA : A = availableOf (s.providers p))
    (hT : T = totalPendingOf s (s.providerPendingCompensations p))
    (hApos : 0 < A) (hAT : A < T)
    (hrun : processProportionalCompensations s p = some s') :
    (∀ c ∈ s.providerPendingCompensations p,
      (s'.claims c).paidAmount = (s.claims c).paidAmount +
        min (s.pendingCompensations c).amount
          (A * (s.pendingCompensations c).amount / T) ∧
      min (s.pendingCompensations c).amount
          (A * (s.pendingCompensations c).amount / T)
        = A * (s.pendingCompensations c).amount / T) ∧
    ((s.providerPendingCompensations p).map
      (fun c => min (s.pendingCompensations c).amount
        (A * (s.pendingCompensations c).amount / T))).sum ≤ A ∧
    (∀ (l' : List Commitment) (t' : ContractState),
      l'.Perm (s.providerPendingCompensations p) →
      processProportionalCompensations
        { s with providerPendingCompensations := upd s.providerPendingCompensations p l' }
        p = some t' →
      ∀ c ∈ s.providerPendingCompensations p,
        (t'.claims c).paidAmount = (s'.claims c).paidAmount) := by
  have hTpos : 0 < T := by omega
  have hmincollapse : ∀ c ∈ s.providerPendingCompensations p,
      payTo s A T c = A * (s.pendingCompensations c).amount / T ∧
      min (s.pendingCompensations c).amount
        (A * (s.pendingCompensations c).amount / T)
        = A * (s.pendingCompensations c).amount / T := by
    intro c hc
    obtain ⟨hv1, hv2⟩ := hvalid c hc
    have hlt : A * (s.pendingCompensations c).amount / T
        < (s.pendingCompensations c).amount := by
      rw [Nat.div_lt_iff_lt_mul hTpos]
      calc A * (s.pendingCompensations c).amount
          < T * (s.pendingCompensations c).amount :=
            Nat.mul_lt_mul_of_pos_right hAT hv2
        _ = (s.pendingCompensations c).amount * T := Nat.mul_comm _ _
    constructor
    · simp only [payTo, hv1, hv2, and_true, if_true]
      rw [if_neg (by omega)]
    · exact Nat.min_eq_right (Nat.le_of_lt hlt)
  obtain ⟨hmain, hpool⟩ := process_paid_formula hnd (hA ▸ hApos) (hT ▸ hTpos) hrun
  refine ⟨?_, ?_, ?_⟩
  · intro c hc
    obtain ⟨hm1, hm2⟩ := hmincollapse c hc
    have := hmain c hc
    rw [← hA, ← hT] at this
    rw [this, hm1, hm2]
    exact ⟨rfl, rfl⟩
  · have hmap : (s.providerPendingCompensations p).map
        (fun c => min (s.pendingCompensations c).amount
          (A * (s.pendingCompensations c).amount / T))
        = (s.providerPendingCompensations p).map (payTo s A T) := by
      apply List.map_congr_left
      intro c hc
      obtain ⟨hm1, hm2⟩ := hmincollapse c hc
      rw [hm2, hm1]
    rw [hmap]
    exact sum_payTo_le s A T _ hTpos hT.symm
  · intro l' t' hperm hrun'
    have hndl' : l'.Nodup := hperm.nodup_iff.mpr hnd
    have hq' : ({ s with providerPendingCompensations := upd s.providerPendingCompensations p l' } :
        ContractState).providerPendingCompensations p = l' := upd_same _ _ _
    have hAeq : availableOf
        (({ s with providerPendingCompensations := upd s.providerPendingCompensations p l' } :
          ContractState).providers p) = availableOf (s.providers p) := rfl
    have hTeq : totalPendingOf
        { s with providerPendingCompensations := upd s.providerPendingCompensations p l' } l'
        = totalPendingOf s (s.providerPendingCompensations p) := by
      unfold totalPendingOf
      have hvA : ∀ c, validAmount
          { s with providerPendingCompensations := upd s.providerPendingCompensations p l' } c
          = validAmount s c :=
        fun c => rfl
      rw [List.map_congr_left (fun c _ => hvA c)]
      exact List.Perm.sum_eq (hperm.map (validAmount s))
    have hndq : (({ s with providerPendingCompensations := upd s.providerPendingCompensations p l' } :
        ContractState).providerPendingCompensations p).Nodup := by
      rw [hq']
      exact hndl'
    have hApos' : 0 < availableOf
        (({ s with providerPendingCompensations := upd s.providerPendingCompensations p l' } :
          ContractState).providers p) := by
      rw [hAeq]
      exact hA ▸ hApos
    have hTpos' : 0 < totalPendingOf
        { s with providerPendingCompensations := upd s.providerPendingCompensations p l' }
        (({ s with providerPendingCompensations := upd s.providerPendingCompensations p l' } :
          ContractState).providerPendingCompensations p) := by
      rw [hq', hTeq]
      exact hT ▸ hTpos
    obtain ⟨hmain', _⟩ := process_paid_formula hndq hApos' hTpos' hrun'
    intro c hc
    have hcl' : c ∈ l' := hperm.mem_iff.mpr hc
    have h1 := hmain' c (by rw [hq']; exact hcl')
    rw [hq', hTeq, hAeq] at h1
    have h2 := hmain c hc
    have hpayeq : payTo
        { s with providerPendingCompensations := upd s.providerPendingCompensations p l' }
        (availableOf (s.providers p))
        (totalPendingOf s (s.providerPendingCompensations p)) c
        = payTo s (availableOf (s.providers p))
        (totalPendingOf s (s.providerPendingCompensations p)) c := rfl
    rw [hpayeq] at h1
    rw [h1, h2]

/-- C4 witness state: provider 1 with 8 liquid units and remainders 1, 1, 8
(total 10 > 8 = available). -/
def c4q0 : ContractState :=
  { providers := upd (fun _ => pd0) 1 { pd0 with isActive := true, poolBalance := 8 },
    claims := upd (upd (upd (fun _ => claim0)
      1 { claim0 with client := 5, provider := 1, requestedAmount := 1,
                      pendingAmount := 1, initiatedAt := 1,
                      status := ClaimStatus.Partial })
      2 { claim0 with client := 5, provider := 1, requestedAmount := 1,
                      pendingAmount := 1, initiatedAt := 1,
                      status := ClaimStatus.Partial })
      3 { claim0 with client := 5, provider := 1, requestedAmount := 8,
                      pendingAmount := 8, initiatedAt := 1,
                      status := ClaimStatus.Partial },
    providerPendingCompensations := upd (fun _ => []) 1 [1, 2, 3],
    pendingCompensations := upd (upd (upd (fun _ => comp0)
      1 { comp0 with commitment := 1, client := 5, amount := 1, createdAt := 1 })
      2 { comp0 with commitment := 2, client := 5, amount := 1, createdAt := 1 })
      3 { comp0 with commitment := 3, client := 5, amount := 8, createdAt := 1 },
    totalProviderPools := 8, emergencyPool := 0, platformInsuranceFund := 0,
    totalClaimsInitiated := 3, totalClaimsExecuted := 0,
    totalPendingCompensations := 10, owner := 0, transfersOut := [] }

/-- C4 witness state after one distribution. -/
def c4q1 : ContractState := (processProportionalCompensations c4q0 1).getD c4q0

/-- Witness for C4: on the concrete state, entry 3 (remainder 8) is paid
exactly `min(8, floor(8·8/10)) = 6`. -/
theorem C4_proportional_payments_witness :
    (c4q0.providerPendingCompensations 1).Nodup ∧
    (0 : Nat) < 8 ∧ (8 : Nat) < 10 ∧
    (c4q1.claims 3).paidAmount = (c4q0.claims 3).paidAmount +
      min (c4q0.pendingCompensations 3).amount
        (8 * (c4q0.pendingCompensations 3).amount / 10) := by
  have h4 := C4_proportional_payments c4q0 c4q1 1 8 10 (by decide) (by decide)
    (by decide) (by decide) (by decide) (by decide) rfl
  exact ⟨by decide, by decide, by decide, (h4.1 3 (by decide)).1⟩

end X402
